import Mathlib

/-!
Verification development for the `scripts/ai_cleanup` core of the log1933
repository: `LogbookCleaner` (logbook_cleaner.py) and `DocumentCombiner`
(document_combiner.py).

The Python source is shallowly embedded:
* Python `str` is Lean `String` / `List Char` (all repository data is ASCII);
* Python `float` scores (sums of the literal constants 0.1 .. 0.4 appearing in
  the source) are modelled as exact rationals `ℚ`, written with the same
  denominators as the source (`4/10` for `0.4`, ...);
* Python `None` / missing dict keys are modelled with `Option`;
* Python `re` patterns are embedded as terms of a small regular-expression
  AST `RE`, matched by a backtracking matcher with Python's leftmost /
  greedy / first-alternative preference, word boundaries, anchors (both with
  and without `re.MULTILINE`) and a single capture group — everything the
  patterns of these two files use.  Case-insensitive patterns
  (`re.IGNORECASE`) are embedded by making every character class of the
  pattern case-insensitive (so `[A-Z]` under IGNORECASE means any letter,
  exactly as in Python);
* `try/except` around `datetime.strptime` is modelled by `Option`-returning
  parsers.
-/

set_option maxRecDepth 100000

set_option maxHeartbeats 2000000

set_option allowUnsafeReducibility true

attribute [local semireducible] Rat.add Rat.mul Rat.inv Rat.sub Rat.div

namespace Log1933

/-! ### Python character classes (`\s`, `\d`, `\w`, `[a-z]`, `[A-Z]`) -/

def isPySpace (c : Char) : Bool :=
  c = ' ' || c = '\t' || c = '\n' || c = '\r' || c = '\x0b' || c = '\x0c'

def isDigitC (c : Char) : Bool := '0' ≤ c && c ≤ '9'

def isUpperC (c : Char) : Bool := 'A' ≤ c && c ≤ 'Z'

def isLowerC (c : Char) : Bool := 'a' ≤ c && c ≤ 'z'

def isAlphaC (c : Char) : Bool := isUpperC c || isLowerC c

def isWordC (c : Char) : Bool := isAlphaC c || isDigitC c || c = '_'

/-- Python `str.lower()` on the ASCII range. -/
def lowerC (c : Char) : Char :=
  if isUpperC c then Char.ofNat (c.toNat + 32) else c

def lowerL (l : List Char) : List Char := l.map lowerC

/-! ### Python string helpers -/

/-- Python `str.strip()`: drop leading and trailing whitespace. -/
def pyStrip (l : List Char) : List Char :=
  ((l.dropWhile isPySpace).reverse.dropWhile isPySpace).reverse

/-- Python `str.rstrip()`: drop trailing whitespace. -/
def pyRStrip (l : List Char) : List Char :=
  (l.reverse.dropWhile isPySpace).reverse

/-- Python substring containment `needle in hay`. -/
def isSubL (n : List Char) : List Char → Bool
  | [] => n.isPrefixOf []
  | c :: cs => n.isPrefixOf (c :: cs) || isSubL n cs

/-- Python `str.split()`: the maximal non-whitespace runs, collected by a
one-pass scan (`w` holds the current word, reversed). -/
def pyWordsGo : Option (List Char) → List Char → List (List Char)
  | none, [] => []
  | some w, [] => [w.reverse]
  | none, c :: cs =>
    if isPySpace c then pyWordsGo none cs else pyWordsGo (some [c]) cs
  | some w, c :: cs =>
    if isPySpace c then w.reverse :: pyWordsGo none cs
    else pyWordsGo (some (c :: w)) cs

def pyWords (l : List Char) : List (List Char) := pyWordsGo none l

/-- Python `len(str.split())`. -/
def pyWordCount (l : List Char) : Nat := (pyWords l).length

/-- Python `str.title()`: a letter is uppercased after a non-letter,
    lowercased otherwise. -/
def pyTitleGo : Bool → List Char → List Char
  | _, [] => []
  | prevAlpha, c :: cs =>
    if isAlphaC c then
      (if prevAlpha then lowerC c else (if isLowerC c then Char.ofNat (c.toNat - 32) else c)) ::
        pyTitleGo true cs
    else c :: pyTitleGo false cs

def pyTitle (l : List Char) : List Char := pyTitleGo false l

/-! ### The regular-expression AST

`bos`/`eosPy` are `^`/`$` without `re.MULTILINE` (Python `$` also matches
just before a single final newline); `bolM`/`eolM` are `^`/`$` with
`re.MULTILINE`; `wb` is `\b`; `look r` is the lookahead `(?=r)`;
`grp r` is the (first) capture group `(r)`. -/

inductive RE where
  | eps
  | cls (p : Char → Bool)
  | seq (a b : RE)
  | alt (a b : RE)
  | star (r : RE)
  | bos
  | eosPy
  | bolM
  | eolM
  | wb
  | look (r : RE)
  | grp (r : RE)

abbrev Capt := Option (List Char)

/-- Backtracking matcher in continuation-passing style.  The continuation
receives the character just before the current position (for `\b`, `^`),
the remaining input and the capture of group 1.  Alternatives are tried
left to right, `star` is greedy (and stops on an empty-width iteration),
which is exactly Python's preference order. -/
def mCont : Nat → RE → Option Char → List Char → Capt →
    (Option Char → List Char → Capt → Option (List Char × Capt)) →
    Option (List Char × Capt)
  | 0, _, _, _, _, _ => none
  | fuel+1, re, prev, s, cap, k =>
    match re with
    | .eps => k prev s cap
    | .cls p =>
      match s with
      | [] => none
      | c :: cs => if p c then k (some c) cs cap else none
    | .seq a b => mCont fuel a prev s cap (fun p2 s2 c2 => mCont fuel b p2 s2 c2 k)
    | .alt a b =>
      (mCont fuel a prev s cap k).orElse (fun _ => mCont fuel b prev s cap k)
    | .star r =>
      (mCont fuel r prev s cap (fun p2 s2 c2 =>
          if s2.length < s.length then mCont fuel (.star r) p2 s2 c2 k
          else k p2 s2 c2)).orElse
        (fun _ => k prev s cap)
    | .bos => if prev.isNone then k prev s cap else none
    | .eosPy => if s = [] || s = ['\n'] then k prev s cap else none
    | .bolM => if prev.isNone || prev = some '\n' then k prev s cap else none
    | .eolM => if s.isEmpty || s.head? = some '\n' then k prev s cap else none
    | .wb =>
      let pw := match prev with | some c => isWordC c | none => false
      let nw := match s with | c :: _ => isWordC c | [] => false
      if pw ≠ nw then k prev s cap else none
    | .look r =>
      match mCont fuel r prev s cap (fun _ s2 c2 => some (s2, c2)) with
      | some _ => k prev s cap
      | none => none
    | .grp r =>
      mCont fuel r prev s cap (fun p2 s2 _ =>
        k p2 s2 (match cap with
          | some c => some c
          | none => some (s.take (s.length - s2.length))))

/-- Enough fuel for the (small) patterns of this repository over `s`. -/
def reFuel (s : List Char) : Nat := 4000 + 100 * s.length

/-- Try to match `re` at the current position; returns the rest of the input
after the match, and group 1's capture. -/
def matchHere (re : RE) (prev : Option Char) (s : List Char) :
    Option (List Char × Capt) :=
  mCont (reFuel s) re prev s none (fun _ s2 c2 => some (s2, c2))

/-- Python `re.search(...) is not None`, scanning left to right. -/
def searchGo (re : RE) : Option Char → List Char → Bool
  | prev, [] => (matchHere re prev []).isSome
  | prev, c :: cs => (matchHere re prev (c :: cs)).isSome || searchGo re (some c) cs

def searchB (re : RE) (s : List Char) : Bool := searchGo re none s

/-- Python `re.search`, returning the whole matched substring and group 1. -/
def searchExGo (re : RE) : Option Char → List Char → Option (List Char × Capt)
  | prev, s =>
    match matchHere re prev s with
    | some (rest, cap) => some (s.take (s.length - rest.length), cap)
    | none =>
      match s with
      | [] => none
      | c :: cs => searchExGo re (some c) cs

def searchEx (re : RE) (s : List Char) : Option (List Char × Capt) :=
  searchExGo re none s

/-- Python `re.sub(pattern, repl, s)` for a constant replacement string:
leftmost non-overlapping matches, scanning resumes after each match.  The
fuel argument (`s.length + 1` at the top level) only forces structural
termination: every step consumes at least one input character. -/
def substGoF (re : RE) (repl : List Char) :
    Nat → Option Char → List Char → List Char
  | 0, _, s => s
  | fuel+1, prev, s =>
    match matchHere re prev s with
    | some (rest, _) =>
      if rest.length < s.length then
        let consumed := s.take (s.length - rest.length)
        repl ++ substGoF re repl fuel
          (consumed.getLast?.orElse (fun _ => prev)) rest
      else
        match s with
        | [] => repl
        | c :: cs => repl ++ c :: substGoF re repl fuel (some c) cs
    | none =>
      match s with
      | [] => []
      | c :: cs => c :: substGoF re repl fuel (some c) cs

def subst (re : RE) (repl : List Char) (s : List Char) : List Char :=
  substGoF re repl (s.length + 1) none s

/-- Python `re.findall`: `useCap = true` collects group 1 of each match
(Python returns the group when the pattern has one), otherwise the whole
match.  Fuel as in `substGoF`. -/
def findallGoF (useCap : Bool) (re : RE) :
    Nat → Option Char → List Char → List (List Char)
  | 0, _, _ => []
  | fuel+1, prev, s =>
    match matchHere re prev s with
    | some (rest, cap) =>
      let consumed := s.take (s.length - rest.length)
      let item := if useCap then cap.getD [] else consumed
      if rest.length < s.length then
        item :: findallGoF useCap re fuel
          (consumed.getLast?.orElse (fun _ => prev)) rest
      else
        match s with
        | [] => [item]
        | c :: cs => item :: findallGoF useCap re fuel (some c) cs
    | none =>
      match s with
      | [] => []
      | c :: cs => findallGoF useCap re fuel (some c) cs

def findall (useCap : Bool) (re : RE) (s : List Char) : List (List Char) :=
  findallGoF useCap re (s.length + 1) none s

/-! ### Pattern combinators -/

def chr (c : Char) : RE := .cls (fun x => x = c)

/-- A case-insensitive literal character (`re.IGNORECASE`). -/
def chrCI (c : Char) : RE := .cls (fun x => lowerC x = lowerC c)

def seqL : List RE → RE
  | [] => .eps
  | [r] => r
  | r :: rest => .seq r (seqL rest)

def altL : List RE → RE
  | [] => .cls (fun _ => false)
  | [r] => r
  | r :: rest => .alt r (altL rest)

def lit (s : String) : RE := seqL (s.data.map chr)

def litCI (s : String) : RE := seqL (s.data.map chrCI)

def rOpt (r : RE) : RE := .alt r .eps

def rPlus (r : RE) : RE := .seq r (.star r)

/-- `{1,2}` (greedy). -/
def rep1to2 (r : RE) : RE := .seq r (rOpt r)

/-- `{2,4}` (greedy). -/
def rep2to4 (r : RE) : RE := .seq r (.seq r (rOpt (.seq r (rOpt r))))

/-- `{3,}` (greedy). -/
def rep3plus (r : RE) : RE := .seq r (.seq r (.seq r (.star r)))

def dC : RE := .cls isDigitC

def wC : RE := .cls isWordC

def sC : RE := .cls isPySpace

/-- `[a-z]` in a case-sensitive pattern. -/
def azS : RE := .cls isLowerC

/-- `[A-Z]` in a case-sensitive pattern. -/
def AZS : RE := .cls isUpperC

/-- `[a-z]` or `[A-Z]` under `re.IGNORECASE`: any letter. -/
def azCI : RE := .cls isAlphaC

/-- `.` (no DOTALL): anything but a newline. -/
def dotC : RE := .cls (fun c => c ≠ '\n')

def clsIn (l : List Char) : RE := .cls (fun c => l.elem c)

def monthNames : List String :=
  ["January", "February", "March", "April", "May", "June", "July",
   "August", "September", "October", "November", "December"]

/-- `(?:January|...|December)` under IGNORECASE. -/
def monthCI : RE := altL (monthNames.map litCI)

/-! ### logbook_cleaner.py — `clean_text`

The whitespace / punctuation phases (lines 144–160 of the source) are decided
substitutions on fixed tiny patterns; each is embedded as a bespoke recursive
function implementing exactly Python's `re.sub` behaviour for its pattern
(leftmost non-overlapping matches, greedy quantifiers, resume after match). -/

/-- The class `[,.!?;:]`. -/
def isPunct6 (c : Char) : Bool :=
  c = ',' || c = '.' || c = '!' || c = '?' || c = ';' || c = ':'

/-- `re.sub(r'\s+', ' ', text)`: every whitespace run becomes one space.
One-pass scan; `inRun` records whether the previous character was
whitespace (already emitted as the run's single `' '`). -/
def collapseGo : Bool → List Char → List Char
  | _, [] => []
  | inRun, c :: cs =>
    if isPySpace c then
      if inRun then collapseGo true cs else ' ' :: collapseGo true cs
    else c :: collapseGo false cs

def collapseWS (l : List Char) : List Char := collapseGo false l

/-- `re.sub(r'\s+([,.!?;:])', r'\1', text)`: a maximal whitespace run
followed by a punctuation character is dropped (no shorter run inside it can
match, and scanning resumes after the punctuation).  `pend` buffers the
current whitespace run, reversed. -/
def dropSpGo : List Char → List Char → List Char
  | pend, [] => pend.reverse
  | pend, c :: cs =>
    if isPySpace c then dropSpGo (c :: pend) cs
    else if isPunct6 c && !pend.isEmpty then c :: dropSpGo [] cs
    else pend.reverse ++ c :: dropSpGo [] cs

def dropSpBeforePunct (l : List Char) : List Char := dropSpGo [] l

/-- `re.sub(r'([,.!?;:])\s*([A-Z])', r'\1 \2', text)`: punctuation, the
maximal (greedy) whitespace run, and an uppercase letter become
`punctuation–space–letter`, scanning resumes after the letter.  The state
holds the pending punctuation character and its following whitespace run
(reversed). -/
def spAfterGo : Option (Char × List Char) → List Char → List Char
  | none, [] => []
  | some (p, pend), [] => p :: pend.reverse
  | none, c :: cs =>
    if isPunct6 c then spAfterGo (some (c, [])) cs
    else c :: spAfterGo none cs
  | some (p, pend), c :: cs =>
    if isPySpace c then spAfterGo (some (p, c :: pend)) cs
    else if isUpperC c then p :: ' ' :: c :: spAfterGo none cs
    else if isPunct6 c then p :: pend.reverse ++ spAfterGo (some (c, [])) cs
    else p :: pend.reverse ++ c :: spAfterGo none cs

def spaceAfterPunct (l : List Char) : List Char := spAfterGo none l

/-- `re.sub(r'([a-z])([A-Z])', r'\1 \2', text)`. -/
def camelSpace : List Char → List Char
  | [] => []
  | [c] => [c]
  | a :: b :: cs =>
    if isLowerC a && isUpperC b then a :: ' ' :: b :: camelSpace cs
    else a :: camelSpace (b :: cs)

/-- Number of newline characters. -/
def countNL (l : List Char) : Nat := (l.filter (fun c => c = '\n')).length

/-- The part of `l` strictly after its last `'\n'`. -/
def afterLastNL (l : List Char) : List Char :=
  (l.reverse.takeWhile (fun c => c ≠ '\n')).reverse

/-- The replacement step shared by the two newline-run substitutions:
`buf` is a whitespace run that began with `'\n'` (reversed); a run holding at
least `k` newlines matches (greedily, through its last newline) and becomes
two newlines followed by the run's tail after that newline; otherwise the run
is emitted unchanged. -/
def flushNLRun (k : Nat) (buf : List Char) : List Char :=
  if k ≤ countNL buf then '\n' :: '\n' :: afterLastNL buf.reverse
  else buf.reverse

/-- `re.sub(r'\n\s*\n', '\n\n', text)` for `k = 2` and
`re.sub(r'\n\s*\n\s*\n+', '\n\n', text)` for `k = 3`: a match is exactly a
maximal whitespace run beginning with `'\n'` and containing at least `k`
newlines; a run with fewer newlines cannot contain a match.  `buf` buffers
the current such run, reversed (empty = not inside a run). -/
def nlRunGo (k : Nat) : List Char → List Char → List Char
  | buf, [] => flushNLRun k buf
  | [], c :: cs =>
    if c = '\n' then nlRunGo k ['\n'] cs else c :: nlRunGo k [] cs
  | buf, c :: cs =>
    if isPySpace c then nlRunGo k (c :: buf) cs
    else flushNLRun k buf ++ c :: nlRunGo k [] cs

def nlRunSub (k : Nat) (l : List Char) : List Char := nlRunGo k [] l

/-- `re.sub(r'\n([A-Z])', r'\n\n\1', text)`. -/
def nlUpper : List Char → List Char
  | [] => []
  | c :: cs =>
    if c = '\n' then
      match cs with
      | u :: rs =>
        if isUpperC u then '\n' :: '\n' :: u :: nlUpper rs
        else '\n' :: nlUpper (u :: rs)
      | [] => ['\n']
    else c :: nlUpper cs

/-! `re.sub(r'^\s*CORE\s*$', '', text, flags=re.MULTILINE)` for the three
line-removal patterns (source lines 154–156).  A match starts at a line start
(`^` with MULTILINE), takes the maximal `\s*` run, the greedy CORE, then `\s*$`:
the trailing run extends to the end of the string, or (greedily) through the
prefix of the following whitespace run that ends just before its last `'\n'`
(`$` matches before a newline).  `re.sub` matches against the original string,
so the scan below walks the original input. -/

/-- Match `\s*CORE\s*$` at the current (line-start) position; returns the rest
of the input after the match. -/
def mLineCore (core : List Char → Option (List Char)) (l : List Char) :
    Option (List Char) :=
  match core (l.dropWhile isPySpace) with
  | none => none
  | some a2 =>
    let run := a2.takeWhile isPySpace
    let afterRun := a2.dropWhile isPySpace
    if afterRun.isEmpty then some []
    else if countNL run = 0 then none
    else some ('\n' :: afterLastNL run ++ afterRun)

/-- CORE `\d+` (greedy). -/
def coreDigits (a : List Char) : Option (List Char) :=
  match a.takeWhile isDigitC with
  | [] => none
  | _ => some (a.dropWhile isDigitC)

/-- CORE `[A-Z]` (case-sensitive: the source passes only `re.MULTILINE`). -/
def coreUpper1 (a : List Char) : Option (List Char) :=
  match a with
  | c :: rest => if isUpperC c then some rest else none
  | [] => none

/-- CORE `[A-Z]\d+`. -/
def coreUpperDigits (a : List Char) : Option (List Char) :=
  match a with
  | c :: rest =>
    if isUpperC c then
      match rest.takeWhile isDigitC with
      | [] => none
      | _ => some (rest.dropWhile isDigitC)
    else none
  | [] => none

/-- The `re.sub(..., '', ..., flags=re.MULTILINE)` scan for a line pattern:
a match is attempted exactly at line starts of the original input.  The fuel
argument (`length + 1` at the top level) only forces structural termination:
every step consumes at least one input character. -/
def subLineGo (m : List Char → Option (List Char)) :
    Nat → Bool → List Char → List Char
  | 0, _, l => l
  | _+1, _, [] => []
  | fuel+1, atLS, c :: cs =>
    if atLS then
      match m (c :: cs) with
      | some rest =>
        if rest.length < (c :: cs).length then
          let consumed := (c :: cs).take ((c :: cs).length - rest.length)
          subLineGo m fuel (consumed.getLast? == some '\n') rest
        else c :: subLineGo m fuel (c == '\n') cs
      | none => c :: subLineGo m fuel (c == '\n') cs
    else c :: subLineGo m fuel (c == '\n') cs

def subLinePat (m : List Char → Option (List Char)) (l : List Char) :
    List Char :=
  subLineGo m (l.length + 1) true l

/-- The character class kept by
`re.sub(r'[^\w\s\.\,\!\?\;\:\-\(\)\[\]\{\}\"\'\$\%\&\@\#\*\+\=\<\>\/\\\|\_\~\`\^]', '', text)`
(source line 95): word characters, whitespace, and the listed punctuation. -/
def allowedChar (c : Char) : Bool :=
  isWordC c || isPySpace c ||
  [ '.', ',', '!', '?', ';', ':', '-', '(', ')', '[', ']',
    Char.ofNat 123, Char.ofNat 125, '"', Char.ofNat 39, '$', '%', '&', '@',
    '#', '*', '+', '=', '<', '>', '/', '\\', '|', '_', '~',
    Char.ofNat 96, '^' ].elem c

/-- One `\b…\b` case-insensitive word fix from the `ocr_fixes` table. -/
def wordFix (w repl : String) : RE × List Char :=
  (seqL [.wb, litCI w, .wb], repl.data)

/-- The class `[,\s]`. -/
def commaWS : RE := .cls (fun c => c = ',' || isPySpace c)

/-- The `ocr_fixes` table (source lines 98–138), in insertion order; every
pattern is applied with `flags=re.IGNORECASE`. -/
def ocrFixes : List (RE × List Char) :=
  [ -- r'\bI\b(?=\s+[a-z])': 'I'
    (seqL [.wb, chrCI 'I', .wb, .look (seqL [rPlus sC, azCI])], ['I']),
    wordFix "to-morrow" "tomorrow",
    wordFix "to-day" "today",
    wordFix "to-night" "tonight",
    wordFix "per cent" "percent",
    wordFix "per-cent" "percent",
    wordFix "favour" "favor",
    wordFix "favourable" "favorable",
    wordFix "colour" "color",
    wordFix "honour" "honor",
    wordFix "centre" "center",
    wordFix "theatre" "theater",
    wordFix "conneotor" "connector",
    wordFix "sele otor" "selector",
    wordFix "offereing" "offering",
    wordFix "preceeding" "preceding",
    wordFix "regretable" "regrettable",
    wordFix "travelling" "traveling",
    wordFix "neighbouring" "neighboring",
    wordFix "Rumours" "Rumors",
    wordFix "rumours" "rumors",
    wordFix "Manchukoa" "Manchukuo",
    wordFix "Tokio" "Tokyo",
    wordFix "Automatio" "Automatic",
    wordFix "specially" "especially",
    wordFix "over-estimated" "overestimated",
    wordFix "over-burdened" "overburdened",
    -- r'\bG\.\$': 'G.$'
    (seqL [.wb, chrCI 'G', chr '.', chr '$'], "G.$".data),
    -- r'\bU\.\s*S\.\s*A\.': 'U.S.A.'
    (seqL [.wb, chrCI 'U', chr '.', .star sC, chrCI 'S', chr '.', .star sC,
      chrCI 'A', chr '.'], "U.S.A.".data),
    -- r'\bW\.\s*C\.\s*2\.': 'W.C.2.'
    (seqL [.wb, chrCI 'W', chr '.', .star sC, chrCI 'C', chr '.', .star sC,
      chr '2', chr '.'], "W.C.2.".data),
    -- r'\bP\.\s*A\.\s*X\.': 'P.A.X.'
    (seqL [.wb, chrCI 'P', chr '.', .star sC, chrCI 'A', chr '.', .star sC,
      chrCI 'X', chr '.'], "P.A.X.".data),
    -- r'\bHSB\/EMO\b': 'HSB/EMO'
    (seqL [.wb, litCI "HSB", chr '/', litCI "EMO", .wb], "HSB/EMO".data),
    -- r'\b\d+\s+[A-Z]\s+\d+\b': ''
    (seqL [.wb, rPlus dC, rPlus sC, azCI, rPlus sC, rPlus dC, .wb], []),
    -- r'\bdan\s+t\b': ''
    (seqL [.wb, litCI "dan", rPlus sC, chrCI 't', .wb], []),
    -- r'\b[A-Z]{1,2}\s+\d+\s+[A-Z]\s*\b': ''
    (seqL [.wb, rep1to2 azCI, rPlus sC, rPlus dC, rPlus sC, azCI, .star sC, .wb], []),
    -- r'\b\d+\s+[A-Z]\s+\d+\s+[A-Z]\s*\b': ''
    (seqL [.wb, rPlus dC, rPlus sC, azCI, rPlus sC, rPlus dC, rPlus sC, azCI,
      .star sC, .wb], []),
    -- r'\bContext:\s*$': ''
    (seqL [.wb, litCI "Context", chr ':', .star sC, .eosPy], []),
    -- r'\bOriginal:\s*IMG_\d+\.png\s*$': ''
    (seqL [.wb, litCI "Original", chr ':', .star sC, litCI "IMG_", rPlus dC,
      chr '.', litCI "png", .star sC, .eosPy], []),
    -- r'\bConfidence:\s*\d+%\s*$': ''
    (seqL [.wb, litCI "Confidence", chr ':', .star sC, rPlus dC, chr '%',
      .star sC, .eosPy], []) ]

def applyOcrFixes (l : List Char) : List Char :=
  ocrFixes.foldl (fun t pr => subst pr.1 pr.2 t) l

/-- `LogbookCleaner.clean_text` (source lines 89–162), phase by phase in
source order. -/
def clean_text (s : String) : String :=
  if s = "" then "" else
  let t0 := s.data.filter allowedChar           -- line 95: strip disallowed chars
  let t1 := applyOcrFixes t0                    -- lines 140–141
  let t2 := collapseWS t1                       -- line 144
  let t3 := dropSpBeforePunct t2                -- line 145
  let t4 := spaceAfterPunct t3                  -- line 146
  let t5 := camelSpace t4                       -- line 147
  let t6 := nlRunSub 2 t5                       -- line 150
  let t7 := nlUpper t6                          -- line 151
  let t8 := subLinePat (mLineCore coreDigits) t7            -- line 154
  let t9 := subLinePat (mLineCore coreUpper1) t8            -- line 155
  let t10 := subLinePat (mLineCore coreUpperDigits) t9      -- line 156
  let t11 := pyStrip t10                        -- line 159
  let t12 := nlRunSub 3 t11                     -- line 160
  String.mk t12

/-! ### logbook_cleaner.py — date inference

`datetime.strptime(s, fmt)` is modelled per format (CPython compiles `%d` to
`3[01]|[12]\d|0[1-9]|[1-9]`, `%m` to `1[0-2]|0[1-9]|[1-9]`, `%Y` to four
digits, `%B` to the month names case-insensitively, whitespace in the format
to `\s+`, and requires the whole string to match); an invalid calendar date
raises `ValueError`, modelled as `none`. -/

def digitVal (c : Char) : Nat := c.toNat - 48

/-- CPython `%d`: `3[01]|[12]\d|0[1-9]|[1-9]` (alternatives in this order). -/
def scanDay : List Char → Option (Nat × List Char)
  | a :: b :: rest =>
    if a = '3' && (b = '0' || b = '1') then some (30 + digitVal b, rest)
    else if (a = '1' || a = '2') && isDigitC b then
      some (10 * digitVal a + digitVal b, rest)
    else if a = '0' && isDigitC b && b ≠ '0' then some (digitVal b, rest)
    else if isDigitC a && a ≠ '0' then some (digitVal a, b :: rest)
    else none
  | [a] => if isDigitC a && a ≠ '0' then some (digitVal a, []) else none
  | [] => none

/-- CPython `%m`: `1[0-2]|0[1-9]|[1-9]`. -/
def scanMonth2 : List Char → Option (Nat × List Char)
  | a :: b :: rest =>
    if a = '1' && (b = '0' || b = '1' || b = '2') then some (10 + digitVal b, rest)
    else if a = '0' && isDigitC b && b ≠ '0' then some (digitVal b, rest)
    else if isDigitC a && a ≠ '0' then some (digitVal a, b :: rest)
    else none
  | [a] => if isDigitC a && a ≠ '0' then some (digitVal a, []) else none
  | [] => none

/-- CPython `%Y`: four digits. -/
def scanYear4 : List Char → Option (Nat × List Char)
  | a :: b :: c :: d :: rest =>
    if isDigitC a && isDigitC b && isDigitC c && isDigitC d then
      some (1000 * digitVal a + 100 * digitVal b + 10 * digitVal c + digitVal d, rest)
    else none
  | _ => none

def ciPrefix (w : String) (l : List Char) : Bool :=
  (w.data.map lowerC).isPrefixOf (l.map lowerC)

/-- CPython `%B`: a full month name, case-insensitively. -/
def scanMonthName (l : List Char) : Option (Nat × List Char) :=
  (List.range 12).findSome? (fun i =>
    match monthNames.get? i with
    | some m => if ciPrefix m l then some (i + 1, l.drop m.length) else none
    | none => none)

/-- Whitespace in a strptime format: `\s+`. -/
def scanWS1 (l : List Char) : Option (List Char) :=
  match l.takeWhile isPySpace with
  | [] => none
  | _ => some (l.dropWhile isPySpace)

def scanLit (c : Char) : List Char → Option (List Char)
  | x :: rest => if x = c then some rest else none
  | [] => none

def isLeap (y : Nat) : Bool := y % 4 = 0 && (y % 100 ≠ 0 || y % 400 = 0)

def daysInMonth (y m : Nat) : Nat :=
  if m = 2 then (if isLeap y then 29 else 28)
  else if m = 4 || m = 6 || m = 9 || m = 11 then 30
  else 31

/-- `datetime(y, m, d)` validity (`ValueError` otherwise). -/
def validDate (y m d : Nat) : Bool :=
  1 ≤ m && m ≤ 12 && 1 ≤ d && d ≤ daysInMonth y m

/-- `'%d %B, %Y'`. -/
def strpDBY (l : List Char) : Option (Nat × Nat × Nat) :=
  match scanDay l with
  | none => none
  | some (d, r1) =>
    match scanWS1 r1 with
    | none => none
    | some r2 =>
      match scanMonthName r2 with
      | none => none
      | some (m, r3) =>
        match scanLit ',' r3 with
        | none => none
        | some r4 =>
          match scanWS1 r4 with
          | none => none
          | some r5 =>
            match scanYear4 r5 with
            | some (y, []) => if validDate y m d then some (y, m, d) else none
            | _ => none

/-- `'%B %d, %Y'`. -/
def strpBDY (l : List Char) : Option (Nat × Nat × Nat) :=
  match scanMonthName l with
  | none => none
  | some (m, r1) =>
    match scanWS1 r1 with
    | none => none
    | some r2 =>
      match scanDay r2 with
      | none => none
      | some (d, r3) =>
        match scanLit ',' r3 with
        | none => none
        | some r4 =>
          match scanWS1 r4 with
          | none => none
          | some r5 =>
            match scanYear4 r5 with
            | some (y, []) => if validDate y m d then some (y, m, d) else none
            | _ => none

/-- `'%m/%d/%Y'`. -/
def strpMDY (l : List Char) : Option (Nat × Nat × Nat) :=
  match scanMonth2 l with
  | none => none
  | some (m, r1) =>
    match scanLit '/' r1 with
    | none => none
    | some r2 =>
      match scanDay r2 with
      | none => none
      | some (d, r3) =>
        match scanLit '/' r3 with
        | none => none
        | some r4 =>
          match scanYear4 r4 with
          | some (y, []) => if validDate y m d then some (y, m, d) else none
          | _ => none

/-- `'%Y-%m-%d'`. -/
def strpYMD (l : List Char) : Option (Nat × Nat × Nat) :=
  match scanYear4 l with
  | none => none
  | some (y, r1) =>
    match scanLit '-' r1 with
    | none => none
    | some r2 =>
      match scanMonth2 r2 with
      | none => none
      | some (m, r3) =>
        match scanLit '-' r3 with
        | none => none
        | some r4 =>
          match scanDay r4 with
          | some (d, []) => if validDate y m d then some (y, m, d) else none
          | _ => none

def pad2 (n : Nat) : String := if n < 10 then "0" ++ Nat.repr n else Nat.repr n

/-- `dt.strftime('%Y-%m-%d')` for the years at hand. -/
def fmtYMD (ymd : Nat × Nat × Nat) : String :=
  Nat.repr ymd.1 ++ "-" ++ pad2 ymd.2.1 ++ "-" ++ pad2 ymd.2.2

def dropCommas (l : List Char) : List Char := l.filter (fun c => c ≠ ',')

/-- The inner loop of `infer_date_from_content` (source lines 182–189): try
the four formats on `date_str.replace(',', '')`; each `ValueError` is caught
and the next format tried; `None` if every format fails. -/
def parseDateStr (m : List Char) : Option String :=
  let s := dropCommas m
  match strpDBY s with
  | some ymd => some (fmtYMD ymd)
  | none =>
    match strpBDY s with
    | some ymd => some (fmtYMD ymd)
    | none =>
      match strpMDY s with
      | some ymd => some (fmtYMD ymd)
      | none =>
        match strpYMD s with
        | some ymd => some (fmtYMD ymd)
        | none => none

def ordSuffixCI : RE := altL [litCI "st", litCI "nd", litCI "rd", litCI "th"]

/-- The four `date_patterns` (source lines 170–175), searched with
`re.IGNORECASE`; each is one capture group spanning the whole pattern, so the
whole match is the group. -/
def datePat1 : RE :=
  .grp (seqL [rep1to2 dC, rOpt ordSuffixCI, rPlus sC, monthCI, rPlus commaWS,
    lit "1933"])

def datePat2 : RE :=
  .grp (seqL [monthCI, rPlus sC, rep1to2 dC, rOpt ordSuffixCI, rPlus commaWS,
    lit "1933"])

def datePat3 : RE :=
  .grp (seqL [rep1to2 dC, chr '/', rep1to2 dC, chr '/', lit "1933"])

def datePat4 : RE :=
  .grp (seqL [lit "1933", clsIn ['-', '/'], rep1to2 dC, clsIn ['-', '/'],
    rep1to2 dC])

def date_patterns : List RE := [datePat1, datePat2, datePat3, datePat4]

/-- One pattern's attempt in `infer_date_from_content`: search, then try the
formats on the match; `none` both when the pattern does not match and when the
match fails every format (the per-attempt `except` clauses). -/
def patternAttempt (content : String) (p : RE) : Option String :=
  match searchEx p content.data with
  | some (m, _) => parseDateStr m
  | none => none

/-- Strategy (a) of `infer_date_from_content`: first pattern whose match also
parses; an unparsable match falls through to the next pattern. -/
def inferStratPatterns (content : String) : Option String :=
  date_patterns.findSome? (patternAttempt content)

/-- The `location_to_date_mapping` (source lines 24–74), in insertion order. -/
def locationToDateMapping : List (String × String) :=
  [ ("chicago", "1933-01"), ("new york", "1933-01"),
    ("southampton", "1933-01-28"), ("london", "1933-01-29"),
    ("england", "1933-02"), ("liverpool", "1933-02"),
    ("portugal", "1933-02"), ("lisbon", "1933-02"), ("spain", "1933-02"),
    ("france", "1933-03"), ("paris", "1933-03"), ("switzerland", "1933-03"),
    ("germany", "1933-03"), ("berlin", "1933-03"), ("poland", "1933-04"),
    ("russia", "1933-04"), ("moscow", "1933-04"), ("egypt", "1933-04"),
    ("cairo", "1933-04"), ("suez", "1933-04"), ("india", "1933-05"),
    ("bombay", "1933-05"), ("calcutta", "1933-05"), ("burma", "1933-05"),
    ("rangoon", "1933-05"), ("straits settlements", "1933-05"),
    ("singapore", "1933-05"), ("kuala lumpur", "1933-05"),
    ("penang", "1933-05"), ("china", "1933-06"), ("shanghai", "1933-06"),
    ("hong kong", "1933-06"), ("hongkong", "1933-06"), ("nanking", "1933-06"),
    ("peking", "1933-06"), ("tientsin", "1933-06"), ("japan", "1933-07"),
    ("tokyo", "1933-07"), ("yokohama", "1933-07"),
    ("philippines", "1933-08"), ("manila", "1933-08"), ("hawaii", "1933-09"),
    ("honolulu", "1933-09"), ("pacific", "1933-09"),
    ("san francisco", "1933-09"), ("california", "1933-09"),
    ("united states", "1933-09"), ("america", "1933-09") ]

/-- Strategy (b): first mapping key contained in `location.lower()`
(skipped when `location` is falsy). -/
def inferStratLocation (location : String) : Option String :=
  if location = "" then none
  else
    (locationToDateMapping.find? (fun kv =>
      isSubL kv.1.data (lowerL location.data))).map (fun kv => kv.2)

/-- Strategy (c): first mapping key contained in `content.lower()`. -/
def inferStratContent (content : String) : Option String :=
  (locationToDateMapping.find? (fun kv =>
    isSubL kv.1.data (lowerL content.data))).map (fun kv => kv.2)

/-- Strategy (d): the hard-coded content special cases (source lines 207–214). -/
def inferStratSpecial (content : String) : Option String :=
  let cl := lowerL content.data
  if isSubL "arrived in japan".data cl && isSubL "tenth of july".data cl then
    some "1933-07-10"
  else if isSubL "february".data cl && isSubL "london".data cl then
    some "1933-02-08"
  else if isSubL "january".data cl &&
      (isSubL "chicago".data cl || isSubL "harris".data cl) then
    some "1933-01-30"
  else none

/-- `LogbookCleaner.infer_date_from_content` (source lines 164–216). -/
def infer_date_from_content (content location : String) : Option String :=
  if content = "" then none
  else
    match inferStratPatterns content with
    | some d => some d
    | none =>
      match inferStratLocation location with
      | some d => some d
      | none =>
        match inferStratContent content with
        | some d => some d
        | none => inferStratSpecial content

/-! ### logbook_cleaner.py — location extraction -/

def knownLocations : List String :=
  [ "Chicago", "New York", "Southampton", "London", "England", "Liverpool",
    "Portugal", "Lisbon", "Spain", "France", "Paris", "Switzerland",
    "Germany", "Berlin", "Poland", "Russia", "Moscow", "Egypt", "Cairo",
    "Suez", "India", "Bombay", "Calcutta", "Burma", "Rangoon",
    "Straits Settlements", "Singapore", "Kuala Lumpur", "Penang",
    "China", "Shanghai", "Hong Kong", "Nanking", "Peking", "Tientsin",
    "Japan", "Tokyo", "Yokohama", "Philippines", "Manila", "Hawaii",
    "Honolulu", "San Francisco", "California", "Antwerp", "Melbourne House" ]

/-- `[A-Z][a-z]+(?:\s+[A-Z][a-z]+)*` (case-sensitive: `re.findall` is called
without flags here). -/
def capSeq : RE :=
  seqL [AZS, rPlus azS, .star (seqL [rPlus sC, AZS, rPlus azS])]

def monAbbrevs : List String :=
  ["Jan", "Feb", "Mar", "Apr", "May", "Jun", "Jul", "Aug", "Sep", "Oct",
   "Nov", "Dec"]

/-- `(?:in|at|from|to)\s+([A-Z][a-z]+(?:\s+[A-Z][a-z]+)*)`. -/
def locPat1 : RE :=
  seqL [altL [lit "in", lit "at", lit "from", lit "to"], rPlus sC, .grp capSeq]

/-- `([A-Z][a-z]+(?:\s+[A-Z][a-z]+)*)[,\s]+(?:Jan|...|Dec)`. -/
def locPat2 : RE :=
  seqL [.grp capSeq, rPlus commaWS, altL (monAbbrevs.map lit)]

/-- `I\s+(?:am|was|arrived)\s+(?:in|at)\s+([A-Z][a-z]+(?:\s+[A-Z][a-z]+)*)`. -/
def locPat3 : RE :=
  seqL [chr 'I', rPlus sC, altL [lit "am", lit "was", lit "arrived"],
    rPlus sC, altL [lit "in", lit "at"], rPlus sC, .grp capSeq]

def location_patterns : List RE := [locPat1, locPat2, locPat3]

/-- `LogbookCleaner.extract_location_from_content` (source lines 218–241). -/
def extract_location_from_content (content : String) : Option String :=
  if content = "" then none
  else
    match location_patterns.findSome? (fun p =>
      (findall true p content.data).findSome? (fun m =>
        if knownLocations.any (fun k => k.data == m) then some (String.mk m)
        else none)) with
    | some l => some l
    | none =>
      knownLocations.find? (fun loc =>
        isSubL (lowerL loc.data) (lowerL content.data))

/-! ### Data model

`PageRecord` (`Entry`): the dict shape produced by the upstream pipeline and
consumed by both modules.  Missing keys and `None` are both `none`. -/

structure Entry where
  filename : String := ""
  page_number : Option Nat := none
  date_entry : Option String := none
  location : Option String := none
  content : Option String := none
  raw_ocr_text : Option String := none
  date_inferred : Option Bool := none
  confidence_score : ℚ := 0
  processing_method : String := ""
  deriving DecidableEq, Repr, Inhabited

/-- Python truthiness of an optional string (`None` and `''` are falsy). -/
def truthyS (o : Option String) : Bool := o.getD "" ≠ ""

/-- `LogbookCleaner.clean_entry` (source lines 243–279). -/
def clean_entry (e : Entry) : Entry :=
  let c1 := if truthyS e.content then
      { e with content := some (clean_text (e.content.getD "")) } else e
  let c2 := if truthyS e.raw_ocr_text then
      { c1 with raw_ocr_text := some (clean_text (e.raw_ocr_text.getD "")) }
    else c1
  let c3 := if truthyS e.location then
      { c2 with location := some (clean_text (e.location.getD "")) }
    else
      match extract_location_from_content (e.content.getD "") with
      | some loc => { c2 with location := some loc }
      | none => c2
  if e.date_entry.getD "" = "" then
    match infer_date_from_content (e.content.getD "") (c3.location.getD "") with
    | some d =>
      if d = "" then c3
      else { c3 with date_entry := some d, date_inferred := some true }
    | none => c3
  else { c3 with date_inferred := some false }

structure Metadata where
  cleaned_date : Option String := none
  cleaned_entries : Option Nat := none
  combined_date : Option String := none
  original_entries : Option Nat := none
  combined_entries : Option Nat := none
  documents_combined : Option Nat := none
  deriving DecidableEq, Repr, Inhabited

structure Logbook where
  metadata : Metadata := {}
  entries : List Entry := []
  deriving DecidableEq, Repr, Inhabited

/-- `LogbookCleaner.clean_logbook` (source lines 281–297); the wall-clock
reading `datetime.now().isoformat()` is the explicit parameter `now`. -/
def clean_logbook (now : String) (lb : Logbook) : Logbook :=
  let ce := lb.entries.map clean_entry
  { metadata := { lb.metadata with
      cleaned_date := some now, cleaned_entries := some ce.length },
    entries := ce }

/-! ### document_combiner.py — the `document_patterns` table

Every pattern of this table is searched with `re.IGNORECASE | re.MULTILINE`
(source line 138 etc.), so `^`/`$` are `bolM`/`eolM` and `[a-z]`/`[A-Z]`
mean any letter (`azCI`). -/

/-- `[a-z]\s*$` under IGNORECASE | MULTILINE. -/
def patEndsMidSentence : RE := seqL [azCI, .star sC, .eolM]

/-- `\.\.\.$` under MULTILINE. -/
def patEllipsisEnd : RE := seqL [lit "...", .eolM]

/-- `[,;]\s*$`. -/
def patCommaSemiEnd : RE := seqL [clsIn [',', ';'], .star sC, .eolM]

def letterStartPatterns : List RE :=
  [ -- r'^.*(?:House|Street|Lane|Road),?\s*$'
    seqL [.bolM, .star dotC,
      altL [litCI "House", litCI "Street", litCI "Lane", litCI "Road"],
      rOpt (chr ','), .star sC, .eolM],
    -- r'^\d{1,2}(?:st|nd|rd|th)?\s+(?:January|...)[,\s]+\d{4}'
    seqL [.bolM, rep1to2 dC, rOpt ordSuffixCI, rPlus sC, monthCI,
      rPlus commaWS, dC, dC, dC, dC],
    -- r'^Dear\s+(?:Mr|Mrs|Miss|Dr|Professor)\s+\w+'
    seqL [.bolM, litCI "Dear", rPlus sC,
      altL [litCI "Mr", litCI "Mrs", litCI "Miss", litCI "Dr",
        litCI "Professor"], rPlus sC, rPlus wC],
    -- r'^\w+\s+\w+,\s*Esq\.'
    seqL [.bolM, rPlus wC, rPlus sC, rPlus wC, chr ',', .star sC,
      litCI "Esq", chr '.'] ]

def letterEndPatterns : List RE :=
  [ -- r'(?:Yours\s+(?:sincerely|truly|faithfully)|Sincerely|Best\s+regards|Kind\s+regards),?\s*$'
    seqL [altL
      [ seqL [litCI "Yours", rPlus sC,
          altL [litCI "sincerely", litCI "truly", litCI "faithfully"]],
        litCI "Sincerely",
        seqL [litCI "Best", rPlus sC, litCI "regards"],
        seqL [litCI "Kind", rPlus sC, litCI "regards"] ],
      rOpt (chr ','), .star sC, .eolM],
    -- r'^[A-Z]\.\s*[A-Z]\.\s*\w+\s*$'
    seqL [.bolM, azCI, chr '.', .star sC, azCI, chr '.', .star sC, rPlus wC,
      .star sC, .eolM],
    -- r'^[A-Z]{2,4}\/[A-Z]{2,4}\s*$'
    seqL [.bolM, rep2to4 azCI, chr '/', rep2to4 azCI, .star sC, .eolM] ]

def letterContinuationPatterns : List RE :=
  [patEllipsisEnd, patEndsMidSentence, patCommaSemiEnd]

def telegramStartPatterns : List RE :=
  [ -- r'^[A-Z]+,\s+[A-Z]+\.\s+\d{1,2}'
    seqL [.bolM, rPlus azCI, chr ',', rPlus sC, rPlus azCI, chr '.',
      rPlus sC, rep1to2 dC],
    -- r'^[A-Z]+\s+[A-Z]+\s+\d{1,2}'
    seqL [.bolM, rPlus azCI, rPlus sC, rPlus azCI, rPlus sC, rep1to2 dC],
    -- r'^GANNGOR|^NLT|^CHGO'
    altL [seqL [.bolM, litCI "GANNGOR"], seqL [.bolM, litCI "NLT"],
      seqL [.bolM, litCI "CHGO"]] ]

def telegramEndPatterns : List RE :=
  [ -- r'^[A-Z]+\s*$'
    seqL [.bolM, rPlus azCI, .star sC, .eolM],
    -- r'Stop\.\s*$'
    seqL [litCI "Stop", chr '.', .star sC, .eolM],
    -- r'Love,?\s*$'
    seqL [litCI "Love", rOpt (chr ','), .star sC, .eolM] ]

def telegramContinuationPatterns : List RE :=
  [ seqL [litCI "Stop", .star sC, .eolM],  -- r'Stop\s*$'
    patEndsMidSentence ]

def reportStartPatterns : List RE :=
  [ -- r'^(?:GENERAL|POLITICAL|ECONOMIC|TECHNICAL)\s+(?:SITUATION|REPORT|ANALYSIS)'
    seqL [.bolM,
      altL [litCI "GENERAL", litCI "POLITICAL", litCI "ECONOMIC",
        litCI "TECHNICAL"], rPlus sC,
      altL [litCI "SITUATION", litCI "REPORT", litCI "ANALYSIS"]],
    -- r'^(?:Page|Section)\s+\d+'
    seqL [.bolM, altL [litCI "Page", litCI "Section"], rPlus sC, rPlus dC],
    -- r'^PROSPECTS\s+FOR\s+THE\s+FUTURE'
    seqL [.bolM, litCI "PROSPECTS", rPlus sC, litCI "FOR", rPlus sC,
      litCI "THE", rPlus sC, litCI "FUTURE"],
    -- r'^\d+\.\s+[A-Z]'
    seqL [.bolM, rPlus dC, chr '.', rPlus sC, azCI] ]

def reportEndPatterns : List RE :=
  [ -- r'^(?:End\s+of\s+)?(?:Report|Section|Chapter)'
    seqL [.bolM, rOpt (seqL [litCI "End", rPlus sC, litCI "of", rPlus sC]),
      altL [litCI "Report", litCI "Section", litCI "Chapter"]],
    -- r'^\*\*\*\s*$'
    seqL [.bolM, lit "***", .star sC, .eolM] ]

def reportContinuationPatterns : List RE :=
  [patEllipsisEnd, patEndsMidSentence,
    seqL [chr ':', .star sC, .eolM]]  -- r':\s*$'

def listStartPatterns : List RE :=
  [ seqL [.bolM, litCI "LIST", rPlus sC, litCI "OF", rPlus sC],  -- r'^LIST\s+OF\s+'
    seqL [.bolM, chr '(', rPlus dC, chr ')'],                    -- r'^\(\d+\)'
    seqL [.bolM, rPlus dC, chr '.'],                             -- r'^\d+\.'
    -- r'^[A-Z]-No\.\s+\d+'
    seqL [.bolM, azCI, chr '-', litCI "No", chr '.', rPlus sC, rPlus dC],
    -- r'^PLACES\s+VISITED'
    seqL [.bolM, litCI "PLACES", rPlus sC, litCI "VISITED"] ]

def listEndPatterns : List RE :=
  [ seqL [.bolM, litCI "END", rPlus sC, litCI "OF", rPlus sC, litCI "LIST"],
    seqL [.bolM, chr '*', litCI "Note", chr ':'] ]  -- r'^\*Note:'

def listContinuationPatterns : List RE :=
  [ seqL [.bolM, rPlus dC, .star sC, .eolM],          -- r'^\d+\s*$'
    seqL [.bolM, azCI, .star sC, .eolM],              -- r'^[A-Z]\s*$'
    seqL [.bolM, chr '(', rPlus dC, chr ')', .star sC, .eolM] ]  -- r'^\(\d+\)\s*$'

def narrativeStartPatterns : List RE :=
  [ -- r'^I\s+(?:arrived|met|visited|went|saw)'
    seqL [.bolM, chrCI 'I', rPlus sC,
      altL [litCI "arrived", litCI "met", litCI "visited", litCI "went",
        litCI "saw"]],
    -- r'^The\s+(?:journey|trip|visit)'
    seqL [.bolM, litCI "The", rPlus sC,
      altL [litCI "journey", litCI "trip", litCI "visit"]],
    -- r'^During\s+(?:my|the|this)'
    seqL [.bolM, litCI "During", rPlus sC,
      altL [litCI "my", litCI "the", litCI "this"]] ]

def narrativeEndPatterns : List RE :=
  [seqL [chr '.', .star sC, .eolM]]  -- r'\.\s*$'

def narrativeContinuationPatterns : List RE :=
  [patEndsMidSentence, patCommaSemiEnd,
    seqL [.wb, litCI "and", .star sC, .eolM]]  -- r'\band\s*$'

/-- The five document types, in the insertion order of the
`document_patterns` dict. -/
def docTypes : List String := ["letter", "telegram", "report", "list", "narrative"]

def startPatternsOf (dt : String) : List RE :=
  if dt = "letter" then letterStartPatterns
  else if dt = "telegram" then telegramStartPatterns
  else if dt = "report" then reportStartPatterns
  else if dt = "list" then listStartPatterns
  else narrativeStartPatterns

def endPatternsOf (dt : String) : List RE :=
  if dt = "letter" then letterEndPatterns
  else if dt = "telegram" then telegramEndPatterns
  else if dt = "report" then reportEndPatterns
  else if dt = "list" then listEndPatterns
  else narrativeEndPatterns

def contPatternsOf (dt : String) : List RE :=
  if dt = "letter" then letterContinuationPatterns
  else if dt = "telegram" then telegramContinuationPatterns
  else if dt = "report" then reportContinuationPatterns
  else if dt = "list" then listContinuationPatterns
  else narrativeContinuationPatterns

/-! ### document_combiner.py — `identify_document_type` -/

/-- The r'\d{1,2}(?:st|nd|rd|th)?\s+(?:january|...)' search done on
`content_lower` (source line 158): lowercase literals, no flags. -/
def letterDatePat : RE :=
  seqL [rep1to2 dC,
    rOpt (altL [lit "st", lit "nd", lit "rd", lit "th"]), rPlus sC,
    altL (monthNames.map (fun m => lit (String.mk (lowerL m.data))))]

/-- `len(re.findall(r'^\d+\.|\(\d+\)', content, re.MULTILINE))`
(source line 174). -/
def numberedItemCount (content : String) : Nat :=
  (findall false
    (altL [seqL [.bolM, rPlus dC, chr '.'], seqL [chr '(', rPlus dC, chr ')']])
    content.data).length

/-- Whether some start pattern of `dt` matches (the source breaks after the
first matching pattern, so the `0.4` is added exactly once — i.e. `any`). -/
def startSig (dt content : String) : Bool :=
  (startPatternsOf dt).any (fun p => searchB p content.data)

def endSig (dt content : String) : Bool :=
  (endPatternsOf dt).any (fun p => searchB p content.data)

def contSig (dt content : String) : Bool :=
  (contPatternsOf dt).any (fun p => searchB p content.data)

/-- `any(word in content_lower for word in [...])`. -/
def kwSig (ws : List String) (content : String) : Bool :=
  ws.any (fun w => isSubL w.data (lowerL content.data))

def letterKwSig (content : String) : Bool :=
  kwSig ["dear", "sincerely", "yours truly", "regards"] content

def letterDateSig (content : String) : Bool :=
  searchB letterDatePat (lowerL content.data)

def telegramKwSig (content : String) : Bool :=
  kwSig ["stop", "cable", "wire", "ganngor", "chgo"] content

def telegramShortSig (content : String) : Bool :=
  pyWordCount content.data < 100

def reportKwSig (content : String) : Bool :=
  kwSig ["analysis", "situation", "prospects", "conclusion"] content

def reportLongSig (content : String) : Bool :=
  200 < pyWordCount content.data

def listNumberedSig (content : String) : Bool := 3 < numberedItemCount content

def listKwSig (content : String) : Bool :=
  kwSig ["specification", "equipment", "item", "description"] content

/-- The type-specific "additional heuristics" (source lines 154–178),
returning the total heuristic contribution for `dt`.  Note the telegram
keyword bonus and the list numbered-items bonus are `0.2` in the source. -/
def heurScore (dt : String) (content : String) : ℚ :=
  if dt = "letter" then
    (if letterKwSig content then (1:ℚ)/10 else 0) +
    (if letterDateSig content then (1:ℚ)/10 else 0)
  else if dt = "telegram" then
    (if telegramKwSig content then (2:ℚ)/10 else 0) +
    (if telegramShortSig content then (1:ℚ)/10 else 0)
  else if dt = "report" then
    (if reportKwSig content then (1:ℚ)/10 else 0) +
    (if reportLongSig content then (1:ℚ)/10 else 0)
  else if dt = "list" then
    (if listNumberedSig content then (2:ℚ)/10 else 0) +
    (if listKwSig content then (1:ℚ)/10 else 0)
  else 0

/-- The per-type score of `identify_document_type` (source lines 134–180):
`+0.4` if some start pattern matches, `+0.3` for end patterns, `+0.2` for
continuation patterns, plus the heuristics, capped at `1.0`. -/
def scoreOf (dt : String) (content : String) : ℚ :=
  let s1 := if startSig dt content then (4:ℚ)/10 else 0
  let s2 := if endSig dt content then (3:ℚ)/10 else 0
  let s3 := if contSig dt content then (2:ℚ)/10 else 0
  min (s1 + s2 + s3 + heurScore dt content) 1

/-- Python `max(scores, key=scores.get)`: the first key attaining the
maximum, in iteration order. -/
def argmaxFirst (f : String → ℚ) : List String → String → String
  | [], best => best
  | t :: rest, best => argmaxFirst f rest (if f best < f t then t else best)

/-- `DocumentCombiner.identify_document_type` (source lines 125–192). -/
def identify_document_type (content : String) : String × ℚ :=
  if content = "" then ("unknown", 0)
  else
    let best := argmaxFirst (fun dt => scoreOf dt content) docTypes.tail
      (docTypes.headD "letter")
    let bs := scoreOf best content
    if bs < (3:ℚ)/10 then ("unknown", bs) else (best, bs)

/-! ### document_combiner.py — `is_continuation` -/

/-- `[a-z,;]\s*$` with no flags (source line 230): case-sensitive, `$` is
end-of-string (or before one final newline). -/
def patEndsIncomplete : RE :=
  seqL [.cls (fun c => isLowerC c || c = ',' || c = ';'), .star sC, .eosPy]

/-- `^[a-z]` with no flags (source line 234). -/
def patStartsLower : RE := seqL [.bos, azS]

/-- `Page\s+\d+|^\d+\.\s*$|\(-?\d+-?\)|^-\d+-` with `re.IGNORECASE`
(source line 238). -/
def patPageMarker : RE :=
  altL
    [ seqL [litCI "Page", rPlus sC, rPlus dC],
      seqL [.bos, rPlus dC, chr '.', .star sC, .eosPy],
      seqL [chr '(', rOpt (chr '-'), rPlus dC, rOpt (chr '-'), chr ')'],
      seqL [.bos, chr '-', rPlus dC, chr '-'] ]

/-- `\b[A-Z][a-z]+\b` with no flags (source line 249): proper nouns. -/
def patProperNoun : RE := seqL [.wb, AZS, rPlus azS, .wb]

/-- Python truthiness of `entry.get('page_number', 0)`. -/
def pageOf (e : Entry) : Nat := e.page_number.getD 0

/-- `DocumentCombiner.is_continuation` (source lines 194–255).  The float
accumulation is modelled as exact rationals; every constant is a source
literal. -/
def is_continuation (e1 e2 : Entry) : Bool × ℚ :=
  let content1 := pyStrip (e1.content.getD "").data
  let content2 := pyStrip (e2.content.getD "").data
  if content1.isEmpty || content2.isEmpty then (false, 0)
  else
    let page1 := pageOf e1
    let page2 := pageOf e2
    let conf1 : ℚ :=
      if page1 ≠ 0 && page2 ≠ 0 && ((page2 : ℤ) - page1).natAbs ≤ 5 then
        (2:ℚ)/10 else 0
    let conf2 : ℚ := conf1 +
      (if truthyS e1.date_entry && truthyS e2.date_entry &&
          e1.date_entry.getD "" == e2.date_entry.getD "" then (3:ℚ)/10
       else if truthyS e1.date_entry && !truthyS e2.date_entry then (1:ℚ)/10
       else 0)
    let loc1 := lowerL (e1.location.getD "").data
    let loc2 := lowerL (e2.location.getD "").data
    let conf3 : ℚ := conf2 +
      (if !loc1.isEmpty && !loc2.isEmpty then
        (if loc1 == loc2 then (2:ℚ)/10
         else if (pyWords loc1).any (fun w => isSubL w loc2) ||
             (pyWords loc2).any (fun w => isSubL w loc1) then (1:ℚ)/10
         else 0)
       else 0)
    let conf4 : ℚ := conf3 +
      (if searchB patEndsIncomplete content1 ||
          "...".data.isSuffixOf content1 then (3:ℚ)/10 else 0)
    let conf5 : ℚ := conf4 +
      (if searchB patStartsLower content2 ||
          "and ".data.isPrefixOf content2 ||
          "but ".data.isPrefixOf content2 then (3:ℚ)/10 else 0)
    let conf6 : ℚ := conf5 +
      (if searchB patPageMarker content1 then (2:ℚ)/10 else 0)
    let ty1 := (identify_document_type (String.mk content1)).1
    let ty2 := (identify_document_type (String.mk content2)).1
    let conf7 : ℚ := conf6 +
      (if ty1 == ty2 && ty1 ≠ "unknown" then (2:ℚ)/10 else 0)
    let words1 := (findall false patProperNoun content1).eraseDups
    let words2 := (findall false patProperNoun content2).eraseDups
    let conf8 : ℚ :=
      if !words1.isEmpty && !words2.isEmpty then
        let inter := (words1.filter (fun w => words2.elem w)).length
        let uni := (words1 ++ words2).eraseDups.length
        conf7 + ((inter : ℚ) / (uni : ℚ)) * ((2:ℚ)/10)
      else conf7
    ((5:ℚ)/10 ≤ conf8, conf8)

/-! ### document_combiner.py — `combine_entries` -/

/-- `^(?:Page\s+)?\d+\.?\s*` with IGNORECASE (source line 275). -/
def markerPat1 : RE :=
  seqL [.bos, rOpt (seqL [litCI "Page", rPlus sC]), rPlus dC, rOpt (chr '.'),
    .star sC]

/-- `^-?\d+-?\s*` (source line 276). -/
def markerPat2 : RE :=
  seqL [.bos, rOpt (chr '-'), rPlus dC, rOpt (chr '-'), .star sC]

/-- `^\(\d+\)\s*` (source line 277). -/
def markerPat3 : RE := seqL [.bos, chr '(', rPlus dC, chr ')', .star sC]

/-- `^(?:and|but|however|therefore|thus|so|in|of|the|that|which)\s+`
with IGNORECASE (source line 292). -/
def connectivePat : RE :=
  seqL [.bos,
    altL [litCI "and", litCI "but", litCI "however", litCI "therefore",
      litCI "thus", litCI "so", litCI "in", litCI "of", litCI "the",
      litCI "that", litCI "which"], rPlus sC]

/-- The accumulation loop of `combine_entries` (source lines 267–300).
`acc` is the `combined_content` list in reverse (its head is
`combined_content[-1]`); `isFirst` tracks `i > 0`.  The source's final
`if/else` (lines 297–300) appends in both branches and is transcribed as a
single append. -/
def combineGo : List Entry → Bool → List (List Char) → List (List Char)
  | [], _, acc => acc
  | e :: rest, isFirst, acc =>
    let c0 := pyStrip (e.content.getD "").data
    if c0.isEmpty then combineGo rest false acc
    else
      let c1 := subst markerPat1 [] c0
      let c2 := subst markerPat2 [] c1
      let c3 := subst markerPat3 [] c2
      if !isFirst && !acc.isEmpty then
        let last := acc.headD []
        if searchB patEndsIncomplete last && searchB patStartsLower c3 then
          combineGo rest false ((pyRStrip last ++ ' ' :: c3) :: acc.tail)
        else if searchB connectivePat c3 then
          combineGo rest false ((pyRStrip last ++ ' ' :: c3) :: acc.tail)
        else combineGo rest false (c3 :: acc)
      else combineGo rest false (c3 :: acc)

/-- `DocumentCombiner.combine_entries` (source lines 257–310). -/
def combine_entries (entries : List Entry) : String :=
  if entries.isEmpty then ""
  else if entries.length = 1 then (entries.headD default).content.getD ""
  else
    let parts := (combineGo entries true []).reverse
    let r0 := (List.intercalate "\n\n".data parts)   -- '\n\n'.join
    let r1 := nlRunSub 3 r0                          -- line 306
    let r2 := collapseWS r1                          -- line 307
    String.mk (pyStrip r2)                           -- line 308

/-! ### document_combiner.py — titles and completeness -/

/-- `Dear\s+((?:Mr|Mrs|Miss|Dr|Professor)\s+\w+)` with IGNORECASE. -/
def titleDearPat : RE :=
  seqL [litCI "Dear", rPlus sC,
    .grp (seqL [altL [litCI "Mr", litCI "Mrs", litCI "Miss", litCI "Dr",
      litCI "Professor"], rPlus sC, rPlus wC])]

/-- `Yours\s+(?:sincerely|truly),?\s*([A-Z]\.\s*[A-Z]\.\s*\w+)` with
IGNORECASE. -/
def titleYoursPat : RE :=
  seqL [litCI "Yours", rPlus sC, altL [litCI "sincerely", litCI "truly"],
    rOpt (chr ','), .star sC,
    .grp (seqL [azCI, chr '.', .star sC, azCI, chr '.', .star sC, rPlus wC])]

/-- `^([A-Z]+),?\s+([A-Z]+\.?\s+\d+)` with MULTILINE only; `.group(1)` is
used, and `grp` keeps the first group. -/
def titleTelegramPat : RE :=
  seqL [.bolM, .grp (rPlus AZS), rOpt (chr ','), rPlus sC,
    .grp (seqL [rPlus AZS, rOpt (chr '.'), rPlus sC, rPlus dC])]

/-- `^((?:GENERAL|POLITICAL|ECONOMIC|TECHNICAL)\s+(?:SITUATION|REPORT|ANALYSIS))`
with IGNORECASE | MULTILINE. -/
def titleReportPat : RE :=
  seqL [.bolM, .grp (seqL
    [altL [litCI "GENERAL", litCI "POLITICAL", litCI "ECONOMIC",
      litCI "TECHNICAL"], rPlus sC,
     altL [litCI "SITUATION", litCI "REPORT", litCI "ANALYSIS"]])]

/-- `^LIST\s+OF\s+(.+)` with IGNORECASE | MULTILINE. -/
def titleListPat : RE :=
  seqL [.bolM, litCI "LIST", rPlus sC, litCI "OF", rPlus sC, .grp (rPlus dotC)]

/-- `^PLACES\s+VISITED` with IGNORECASE | MULTILINE. -/
def titlePlacesPat : RE :=
  seqL [.bolM, litCI "PLACES", rPlus sC, litCI "VISITED"]

/-- `DocumentCombiner.create_document_title` (source lines 395–445). -/
def create_document_title (doc_type content : String)
    (location date : Option String) : String :=
  if doc_type = "letter" then
    match searchEx titleDearPat content.data with
    | some (_, some g) => "Letter to " ++ String.mk g
    | _ =>
      match searchEx titleYoursPat content.data with
      | some (_, some g) => "Letter from " ++ String.mk g
      | _ => "Personal Letter"
  else if doc_type = "telegram" then
    match searchEx titleTelegramPat content.data with
    | some (_, some g) => "Telegram from " ++ String.mk g
    | _ => "Telegram"
  else if doc_type = "report" then
    match searchEx titleReportPat content.data with
    | some (_, some g) => String.mk (pyTitle g)
    | _ => "Business Report"
  else if doc_type = "list" then
    match searchEx titleListPat content.data with
    | some (_, some g) => "List of " ++ String.mk (pyTitle g)
    | _ =>
      if searchB titlePlacesPat content.data then "Places Visited"
      else "Equipment List"
  else
    if truthyS location then "Notes from " ++ location.getD ""
    else if truthyS date then "Entry from " ++ date.getD ""
    else "Logbook Entry"

/-- `Dear\s+\w+` with IGNORECASE. -/
def completeLetterGreeting : RE := seqL [litCI "Dear", rPlus sC, rPlus wC]

/-- `(?:Yours\s+(?:sincerely|truly)|Sincerely|Best\s+regards)` with
IGNORECASE. -/
def completeLetterClosing : RE :=
  altL [seqL [litCI "Yours", rPlus sC, altL [litCI "sincerely", litCI "truly"]],
    litCI "Sincerely", seqL [litCI "Best", rPlus sC, litCI "regards"]]

/-- `(?:Stop\.?|[A-Z]{3,})\s*$` with IGNORECASE (no MULTILINE). -/
def completeTelegramPat : RE :=
  seqL [altL [seqL [litCI "Stop", rOpt (chr '.')], rep3plus azCI], .star sC,
    .eosPy]

/-- `^\d+\.|^\(\d+\)` with MULTILINE. -/
def completeListPat : RE :=
  altL [seqL [.bolM, rPlus dC, chr '.'],
    seqL [.bolM, chr '(', rPlus dC, chr ')']]

/-- `[.!?]\s*$` with no flags. -/
def completeDefaultPat : RE := seqL [clsIn ['.', '!', '?'], .star sC, .eosPy]

/-- `DocumentCombiner.is_document_complete` (source lines 447–468). -/
def is_document_complete (doc_type content : String) : Bool :=
  if content = "" then false
  else if doc_type = "letter" then
    searchB completeLetterGreeting content.data &&
    searchB completeLetterClosing content.data
  else if doc_type = "telegram" then searchB completeTelegramPat content.data
  else if doc_type = "list" then searchB completeListPat content.data
  else searchB completeDefaultPat content.data

/-! ### document_combiner.py — `create_document_groups` -/

structure DocumentGroup where
  id : String
  document_type : String
  title : String
  date_entry : Option String
  location : Option String
  entries : List Entry
  combined_content : String
  is_complete : Bool
  confidence : ℚ
  date_inferred : Bool
  deriving DecidableEq, Repr, Inhabited

/-- The group loop's continuation test (source line 345):
`is_cont and confidence > 0.5`. -/
def contTest (e1 e2 : Entry) : Bool :=
  let ic := is_continuation e1 e2
  ic.1 && ((5:ℚ)/10 < ic.2)

/-- Stable ascending insertion by `page_number` (Python `sorted(entries,
key=lambda x: x.get('page_number', 0))` is a stable ascending sort). -/
def insertByPage (x : Entry) : List Entry → List Entry
  | [] => [x]
  | y :: ys => if pageOf y ≤ pageOf x then y :: insertByPage x ys
               else x :: y :: ys

def sortByPage (l : List Entry) : List Entry :=
  l.foldl (fun acc x => insertByPage x acc) []

/-- The inner look-ahead loop (source lines 336–350) over candidate indices
`js`: a used index is skipped; a continuation is absorbed; a failed candidate
stops the loop only when the group already has more than one member. -/
def lookAheadLoop (sorted : List Entry) (used : List Nat) :
    List Nat → List Entry → List Nat → (List Entry × List Nat)
  | [], ges, gis => (ges, gis)
  | j :: js, ges, gis =>
    if j ∈ used then lookAheadLoop sorted used js ges gis
    else
      let nextE := sorted.getD j default
      if contTest (ges.getLastD default) nextE then
        lookAheadLoop sorted used js (ges ++ [nextE]) (gis ++ [j])
      else if 1 < ges.length then (ges, gis)
      else lookAheadLoop sorted used js ges gis

/-- The best-date / best-location scan (source lines 363–372):
`date_inferred` starts `True` and becomes the first dated entry's flag. -/
def bestDateLoc (ges : List Entry) : Option String × Bool × Option String :=
  ges.foldl (fun acc e =>
    let bd := acc.1
    let di := acc.2.1
    let bl := acc.2.2
    let p := if truthyS e.date_entry && !truthyS bd then
        (e.date_entry, e.date_inferred.getD false) else (bd, di)
    let bl2 := if truthyS e.location && !truthyS bl then e.location else bl
    (p.1, p.2, bl2)) (none, true, none)

/-- Building the `DocumentGroup` from a finished member list
(source lines 355–389); `i` is the anchor's index (the default of
`entry.get('page_number', i)`). -/
def mkGroup (anchor : Entry) (i : Nat) (ges : List Entry) : DocumentGroup :=
  let allContent := String.intercalate " "
    (ges.map (fun e => e.content.getD ""))
  let tc := identify_document_type allContent
  let cc := combine_entries ges
  let bdl := bestDateLoc ges
  { id := "doc_" ++ Nat.repr (anchor.page_number.getD i) ++ "_" ++ tc.1,
    document_type := tc.1,
    title := create_document_title tc.1 cc bdl.2.2 bdl.1,
    date_entry := bdl.1,
    location := bdl.2.2,
    entries := ges,
    combined_content := cc,
    is_complete := is_document_complete tc.1 cc,
    confidence := tc.2,
    date_inferred := bdl.2.1 }

/-- The outer loop of `create_document_groups` (source lines 323–391) over
the indices of the sorted entry list, also returning each group's
`group_indices` set (as the list of indices in absorption order). -/
def cdgOuter (sorted : List Entry) :
    List Nat → List Nat → List (List Nat × DocumentGroup)
  | [], _ => []
  | i :: rest, used =>
    if i ∈ used then cdgOuter sorted rest used
    else
      let e := sorted.getD i default
      let c := pyStrip (e.content.getD "").data
      if c.isEmpty || c.length < 20 then cdgOuter sorted rest used
      else
        let js := List.range' (i + 1) (min (i + 10) sorted.length - (i + 1))
        let gg := lookAheadLoop sorted used js [e] [i]
        (gg.2, mkGroup e i gg.1) :: cdgOuter sorted rest (used ++ gg.2)

/-- `create_document_groups` with each group's index set
(the source's `group_indices`). -/
def createDocumentGroupsIdx (entries : List Entry) :
    List (List Nat × DocumentGroup) :=
  if entries.isEmpty then []
  else
    let sorted := sortByPage entries
    cdgOuter sorted (List.range sorted.length) []

/-- `DocumentCombiner.create_document_groups` (source lines 312–393). -/
def create_document_groups (entries : List Entry) : List DocumentGroup :=
  (createDocumentGroupsIdx entries).map (fun g => g.2)

/-! ### document_combiner.py — `process_logbook` -/

/-- The combined-entry dict built at source lines 482–499. -/
structure CombEntry where
  filename : String
  page_number : Nat
  date_entry : Option String
  location : Option String
  content : String
  raw_ocr_text : String
  confidence_score : ℚ
  processing_method : String
  timestamp : String
  date_inferred : Bool
  document_type : String
  document_title : String
  is_combined : Bool
  is_complete : Bool
  source_entries : List String
  entry_count : Nat
  deriving DecidableEq, Repr, Inhabited

def toCombinedEntry (now : String) (g : DocumentGroup) : CombEntry :=
  { filename := "combined_" ++ g.id,
    page_number := (g.entries.headD default).page_number.getD 0,
    date_entry := g.date_entry,
    location := g.location,
    content := g.combined_content,
    raw_ocr_text := "",
    confidence_score := g.confidence,
    processing_method := "ai_combined",
    timestamp := now,
    date_inferred := g.date_inferred,
    document_type := g.document_type,
    document_title := g.title,
    is_combined := true,
    is_complete := g.is_complete,
    source_entries := g.entries.map (fun e => e.filename),
    entry_count := g.entries.length }

structure CombinedLogbook where
  metadata : Metadata := {}
  entries : List CombEntry := []
  deriving DecidableEq, Repr, Inhabited

/-- `DocumentCombiner.process_logbook` (source lines 470–511); the two
`datetime.now().isoformat()` readings are the explicit parameter `now`. -/
def process_logbook (now : String) (lb : Logbook) : CombinedLogbook :=
  let gs := create_document_groups lb.entries
  { metadata := { lb.metadata with
      combined_date := some now,
      original_entries := some lb.entries.length,
      combined_entries := some gs.length,
      documents_combined :=
        some ((gs.filter (fun g => 1 < g.entries.length)).length) },
    entries := gs.map (toCombinedEntry now) }

/-! ### Spec models for the refinement claims

`specScoreClaim` / `specIdentifyClaim` follow the SPEC sentence for
`identify_document_type` word for word: three weighted signal classes (+0.4
start, +0.3 end, +0.2 continuation) "plus type-specific keyword/length
heuristics (+0.1 each, capped at 1.0 total)", argmax, `unknown` below `0.3`.
`specScoreAmended` / `specIdentifyAmended` state the amended weight table as
a weighted-indicator sum (telegram keyword and list numbered-item heuristics
contribute `+0.2`, all other heuristics `+0.1`). -/

def ind (b : Bool) : ℚ := if b then 1 else 0

/-- The type-specific heuristic conditions of each type, as in the source. -/
def heurCondsOf (dt content : String) : List Bool :=
  if dt = "letter" then [letterKwSig content, letterDateSig content]
  else if dt = "telegram" then [telegramKwSig content, telegramShortSig content]
  else if dt = "report" then [reportKwSig content, reportLongSig content]
  else if dt = "list" then [listNumberedSig content, listKwSig content]
  else []

/-- The claim's score: heuristics contribute `+0.1` each. -/
def specScoreClaim (dt content : String) : ℚ :=
  min ((4:ℚ)/10 * ind (startSig dt content) +
       (3:ℚ)/10 * ind (endSig dt content) +
       (2:ℚ)/10 * ind (contSig dt content) +
       (((heurCondsOf dt content).filter id).length : ℚ) * ((1:ℚ)/10)) 1

def specSelect (score : String → ℚ) : String × ℚ :=
  let best := argmaxFirst score docTypes.tail (docTypes.headD "letter")
  if score best < (3:ℚ)/10 then ("unknown", score best) else (best, score best)

/-- `identify_document_type` as the claim words it. -/
def specIdentifyClaim (content : String) : String × ℚ :=
  if content = "" then ("unknown", 0)
  else specSelect (fun dt => specScoreClaim dt content)

/-- The amended heuristic weight table: condition/weight pairs per type. -/
def heurTableAmended (dt content : String) : List (Bool × ℚ) :=
  if dt = "letter" then
    [(letterKwSig content, (1:ℚ)/10), (letterDateSig content, (1:ℚ)/10)]
  else if dt = "telegram" then
    [(telegramKwSig content, (2:ℚ)/10), (telegramShortSig content, (1:ℚ)/10)]
  else if dt = "report" then
    [(reportKwSig content, (1:ℚ)/10), (reportLongSig content, (1:ℚ)/10)]
  else if dt = "list" then
    [(listNumberedSig content, (2:ℚ)/10), (listKwSig content, (1:ℚ)/10)]
  else []

/-- The amended score: a weighted-indicator sum with the source's weights. -/
def specScoreAmended (dt content : String) : ℚ :=
  min ((4:ℚ)/10 * ind (startSig dt content) +
       (3:ℚ)/10 * ind (endSig dt content) +
       (2:ℚ)/10 * ind (contSig dt content) +
       ((heurTableAmended dt content).map (fun bw => ind bw.1 * bw.2)).sum) 1

/-- `identify_document_type` as amended. -/
def specIdentifyAmended (content : String) : String × ℚ :=
  if content = "" then ("unknown", 0)
  else specSelect (fun dt => specScoreAmended dt content)

/-! ### Timestamp scrubbing (for the determinism claim) -/

/-- The Cleaner's output with its wall-clock field cleared. -/
def scrubCleaned (lb : Logbook) : Logbook :=
  { lb with metadata := { lb.metadata with cleaned_date := none } }

def scrubCombEntry (ce : CombEntry) : CombEntry := { ce with timestamp := "" }

/-- The Combiner's output with its wall-clock fields cleared. -/
def scrubCombined (cl : CombinedLogbook) : CombinedLogbook :=
  { metadata := { cl.metadata with combined_date := none },
    entries := cl.entries.map scrubCombEntry }

/-! ### The normalized-whitespace invariant -/

/-- Every whitespace character is a plain `' '`. -/
def onlyPlainSpace (l : List Char) : Prop :=
  ∀ c ∈ l, isPySpace c = true → c = ' '

/-- No two adjacent whitespace characters. -/
def noAdjSpace (l : List Char) : Prop :=
  List.Chain' (fun a b => ¬(isPySpace a = true ∧ isPySpace b = true)) l

/-- A normalized, whitespace-collapsed string: whitespace only as single
interior plain spaces, no leading or trailing whitespace. -/
def wsNormalized (s : String) : Prop :=
  onlyPlainSpace s.data ∧ noAdjSpace s.data ∧
  (∀ c, s.data.head? = some c → isPySpace c = false) ∧
  (∀ c, s.data.getLast? = some c → isPySpace c = false)

/-! ### Concrete inputs used by the counterexamples and witnesses -/

/-- Page 1: opens a group (content ≥ 20 chars), ends mid-word. -/
def exA1 : Entry :=
  { filename := "p1", page_number := some 1,
    content := some "aaaa bbbb cccc dddd eeee" }

/-- Page 2: continuation of `exA1` (starts lowercase); dated. -/
def exA2 : Entry :=
  { filename := "p2", page_number := some 2,
    content := some "ffff gggg hhhh iiii jjjj.",
    date_entry := some "1933-05-01" }

/-- Page 3: not a continuation of `exA2` (starts uppercase, different
date). -/
def exA3 : Entry :=
  { filename := "p3", page_number := some 3,
    content := some "Qqqq wwww rrrr tttt uuuu.",
    date_entry := some "1933-05-02" }

/-- Page 4: would continue `exA2` (same date, starts lowercase). -/
def exA4 : Entry :=
  { filename := "p4", page_number := some 4,
    content := some "kkkk llll mmmm nnnn oooo",
    date_entry := some "1933-05-01" }

/-- Page 1 of the second family: opens a group, ends mid-word. -/
def exB1 : Entry :=
  { filename := "q1", page_number := some 1,
    content := some "aaaa bbbb cccc dddd eeee" }

/-- Page 2: not a continuation of `exB1` (starts uppercase). -/
def exB2 : Entry :=
  { filename := "q2", page_number := some 2,
    content := some "Qqqq wwww rrrr tttt uuuu." }

/-- Page 3: a continuation of `exB1` (starts lowercase). -/
def exB3 : Entry :=
  { filename := "q3", page_number := some 3,
    content := some "ffff gggg hhhh iiii jjjj" }

/-- A record with a present but empty `date_entry` and a location. -/
def exDate : Entry :=
  { filename := "d1", date_entry := some "", content := some "x",
    location := some "Tokyo" }

/-- A record whose `content` key is null/absent. -/
def exNullContent : Entry := { filename := "n1", content := none }

/-- A record with present content and an explicit date. -/
def exPlain : Entry :=
  { filename := "w1", date_entry := some "1933-05-01", content := some "x",
    location := some "Tokyo" }

/-- A one-entry logbook for the determinism counterexample. -/
def exLogbook : Logbook := { entries := [] }

/-! ## Helper lemmas -/

theorem head?_dropWhile_not (p : Char → Bool) :
    ∀ (l : List Char) (c : Char), (l.dropWhile p).head? = some c → p c = false := by
  intro l
  induction l with
  | nil => intro c h; simp [List.dropWhile] at h
  | cons a t ih =>
    intro c h
    simp only [List.dropWhile] at h
    cases hp : p a
    · rw [hp] at h; simp at h; subst h; exact hp
    · rw [hp] at h; simp at h; exact ih c h

theorem lower_not_space {c : Char} (h : isLowerC c = true) :
    isPySpace c = false := by
  cases hs : isPySpace c
  · rfl
  · exfalso
    simp only [isPySpace, Bool.or_eq_true, decide_eq_true_eq] at hs
    rcases hs with ((((h1 | h1) | h1) | h1) | h1) | h1 <;> subst h1 <;>
      exact absurd h (by decide)

theorem upper_not_space {c : Char} (h : isUpperC c = true) :
    isPySpace c = false := by
  cases hs : isPySpace c
  · rfl
  · exfalso
    simp only [isPySpace, Bool.or_eq_true, decide_eq_true_eq] at hs
    rcases hs with ((((h1 | h1) | h1) | h1) | h1) | h1 <;> subst h1 <;>
      exact absurd h (by decide)

theorem punct_not_space {c : Char} (h : isPunct6 c = true) :
    isPySpace c = false := by
  simp only [isPunct6, Bool.or_eq_true, decide_eq_true_eq] at h
  rcases h with ((((h1 | h1) | h1) | h1) | h1) | h1 <;> subst h1 <;> decide

theorem onlyPlainSpace_no_nl {l : List Char} (h : onlyPlainSpace l) :
    ∀ c ∈ l, c ≠ '\n' := by
  intro c hc heq
  subst heq
  have := h '\n' hc (by decide)
  simp at this

theorem onlyPlainSpace_suffix {l t : List Char} (h : onlyPlainSpace l)
    (hs : t <:+ l) : onlyPlainSpace t :=
  fun c hc => h c (hs.subset hc)

theorem noAdjSpace_suffix {l t : List Char} (h : noAdjSpace l) (hs : t <:+ l) :
    noAdjSpace t := h.suffix hs

/-! Collapse phase (`re.sub(r'\s+', ' ')`) establishes the invariant. -/

theorem collapseGo_onlyPlain :
    ∀ (l : List Char) (flag : Bool), onlyPlainSpace (collapseGo flag l) := by
  intro l
  induction l with
  | nil => intro flag; simp [collapseGo, onlyPlainSpace]
  | cons c cs ih =>
    intro flag
    simp only [collapseGo]
    cases hc : isPySpace c
    · simp only [Bool.false_eq_true, if_false]
      intro x hx hsx
      rcases List.mem_cons.mp hx with rfl | hm
      · rw [hsx] at hc; cases hc
      · exact ih false x hm hsx
    · simp only [if_true]
      cases flag
      · simp only [Bool.false_eq_true, if_false]
        intro x hx hsx
        rcases List.mem_cons.mp hx with rfl | hm
        · rfl
        · exact ih true x hm hsx
      · simp only [if_true]
        exact ih true

theorem collapseGo_true_head :
    ∀ (l : List Char) (c : Char), (collapseGo true l).head? = some c →
      isPySpace c = false := by
  intro l
  induction l with
  | nil => intro c h; simp [collapseGo] at h
  | cons a t ih =>
    intro c h
    simp only [collapseGo] at h
    cases ha : isPySpace a
    · rw [ha] at h
      simp at h
      subst h; exact ha
    · rw [ha] at h
      simp at h
      exact ih c h

theorem collapseGo_noAdj :
    ∀ (l : List Char) (flag : Bool), noAdjSpace (collapseGo flag l) := by
  intro l
  induction l with
  | nil => intro flag; simp [collapseGo, noAdjSpace]
  | cons c cs ih =>
    intro flag
    simp only [collapseGo]
    cases hc : isPySpace c
    · simp only [Bool.false_eq_true, if_false]
      refine List.chain'_cons'.mpr ⟨?_, ih false⟩
      intro y _
      rw [hc]; simp
    · simp only [if_true]
      cases flag
      · simp only [Bool.false_eq_true, if_false]
        refine List.chain'_cons'.mpr ⟨?_, ih true⟩
        intro y hy
        have := collapseGo_true_head cs y hy
        rw [this]; simp
      · simp only [if_true]; exact ih true

theorem onlyPlain_cons {a : Char} {l : List Char}
    (ha : isPySpace a = true → a = ' ') (h : onlyPlainSpace l) :
    onlyPlainSpace (a :: l) := by
  intro c hc hs
  rcases List.mem_cons.mp hc with rfl | hm
  · exact ha hs
  · exact h c hm hs

theorem onlyPlain_append {l₁ l₂ : List Char} (h1 : onlyPlainSpace l₁)
    (h2 : onlyPlainSpace l₂) : onlyPlainSpace (l₁ ++ l₂) := by
  intro c hc hs
  rcases List.mem_append.mp hc with hm | hm
  · exact h1 c hm hs
  · exact h2 c hm hs

theorem noAdj_cons_left {a : Char} {l : List Char} (ha : isPySpace a = false)
    (h : noAdjSpace l) : noAdjSpace (a :: l) := by
  refine List.chain'_cons'.mpr ⟨?_, h⟩
  intro y _ hc
  rw [ha] at hc
  simp at hc

theorem noAdj_append {l₁ l₂ : List Char} (h1 : noAdjSpace l₁)
    (h2 : noAdjSpace l₂)
    (hlink : ∀ x ∈ l₁.getLast?, ∀ y ∈ l₂.head?,
      ¬(isPySpace x = true ∧ isPySpace y = true)) :
    noAdjSpace (l₁ ++ l₂) :=
  List.chain'_append.mpr ⟨h1, h2, hlink⟩

theorem noAdj_cons_elim {a : Char} {l : List Char} (h : noAdjSpace (a :: l)) :
    noAdjSpace l := (List.chain'_cons'.mp h).2

theorem onlyPlain_cons_elim {a : Char} {l : List Char}
    (h : onlyPlainSpace (a :: l)) : onlyPlainSpace l :=
  fun c hc => h c (List.mem_cons_of_mem a hc)

/-! Space-before-punctuation removal preserves the invariant. -/

theorem dropSpGo_spec :
    ∀ (l pend : List Char), (∀ c ∈ pend, isPySpace c = true) →
      onlyPlainSpace (pend.reverse ++ l) → noAdjSpace (pend.reverse ++ l) →
      onlyPlainSpace (dropSpGo pend l) ∧ noAdjSpace (dropSpGo pend l) := by
  intro l
  induction l with
  | nil =>
    intro pend _ ho hn
    rw [List.append_nil] at ho hn
    exact ⟨ho, hn⟩
  | cons c cs ih =>
    intro pend hp ho hn
    have heq : pend.reverse ++ c :: cs = (pend.reverse ++ [c]) ++ cs := by simp
    have hcSuf : c :: cs <:+ pend.reverse ++ c :: cs := List.suffix_append _ _
    have hocs : onlyPlainSpace cs :=
      onlyPlain_cons_elim (onlyPlainSpace_suffix ho hcSuf)
    have hncs : noAdjSpace cs := noAdj_cons_elim (noAdjSpace_suffix hn hcSuf)
    simp only [dropSpGo]
    cases hc : isPySpace c
    · simp only [Bool.false_eq_true, if_false]
      have hrec := ih [] (by simp) (by simpa) (by simpa using hncs)
      by_cases hpb : (isPunct6 c && !pend.isEmpty) = true
      · rw [if_pos hpb]
        exact ⟨onlyPlain_cons (by rw [hc]; simp) hrec.1,
          noAdj_cons_left hc hrec.2⟩
      · rw [if_neg hpb]
        constructor
        · refine onlyPlain_append ?_ (onlyPlain_cons (by rw [hc]; simp) hrec.1)
          intro x hx hsx
          exact ho x (by simp [List.mem_append.mp, hx]) hsx
        · refine noAdj_append ?_ (noAdj_cons_left hc hrec.2) ?_
          · exact (List.chain'_append.mp hn).1
          · intro x hx y hy hcc
            simp at hy
            rw [← hy, hc] at hcc
            simp at hcc
    · simp only [if_true]
      refine ih (c :: pend) ?_ ?_ ?_
      · intro x hx
        rcases List.mem_cons.mp hx with rfl | hm
        · exact hc
        · exact hp x hm
      · simpa using ho
      · simpa using hn

theorem dropSpBeforePunct_spec {l : List Char} (ho : onlyPlainSpace l)
    (hn : noAdjSpace l) :
    onlyPlainSpace (dropSpBeforePunct l) ∧ noAdjSpace (dropSpBeforePunct l) :=
  dropSpGo_spec l [] (by simp) (by simpa) (by simpa)

/-! Space-after-punctuation insertion preserves the invariant. -/

theorem spAfterGo_some_head :
    ∀ (l : List Char) (p : Char) (pend : List Char),
      (spAfterGo (some (p, pend)) l).head? = some p := by
  intro l
  induction l with
  | nil => intro p pend; simp [spAfterGo]
  | cons c cs ih =>
    intro p pend
    simp only [spAfterGo]
    cases h1 : isPySpace c
    · simp only [Bool.false_eq_true, if_false]
      cases h2 : isUpperC c
      · simp only [Bool.false_eq_true, if_false]
        cases h3 : isPunct6 c <;> simp
      · simp
    · simp only [if_true]
      exact ih p (c :: pend)

theorem spAfterGo_spec :
    ∀ (l : List Char),
      (∀ (p : Char) (pend : List Char), isPySpace p = false →
        onlyPlainSpace (p :: pend.reverse ++ l) →
        noAdjSpace (p :: pend.reverse ++ l) →
        onlyPlainSpace (spAfterGo (some (p, pend)) l) ∧
        noAdjSpace (spAfterGo (some (p, pend)) l)) ∧
      (onlyPlainSpace l → noAdjSpace l →
        onlyPlainSpace (spAfterGo none l) ∧ noAdjSpace (spAfterGo none l) ∧
        (∀ c, (spAfterGo none l).head? = some c → isPySpace c = true →
          ∃ d, l.head? = some d ∧ isPySpace d = true)) := by
  intro l
  induction l with
  | nil =>
    constructor
    · intro p pend hp ho hn
      simp only [spAfterGo]
      rw [List.cons_append, List.append_nil] at ho hn
      exact ⟨ho, hn⟩
    · intro _ _
      refine ⟨by simp [spAfterGo, onlyPlainSpace], by simp [spAfterGo, noAdjSpace], ?_⟩
      intro c h
      simp [spAfterGo] at h
  | cons c cs ih =>
    constructor
    · -- the `some (p, pend)` state
      intro p pend hp ho hn
      have hcSuf : c :: cs <:+ p :: pend.reverse ++ c :: cs := by
        refine List.suffix_cons_iff.mpr (Or.inr ?_)
        exact List.suffix_append _ _
      have hocc : onlyPlainSpace (c :: cs) := onlyPlainSpace_suffix ho hcSuf
      have hncc : noAdjSpace (c :: cs) := noAdjSpace_suffix hn hcSuf
      have hocs : onlyPlainSpace cs := onlyPlain_cons_elim hocc
      have hncs : noAdjSpace cs := noAdj_cons_elim hncc
      simp only [spAfterGo]
      cases h1 : isPySpace c
      · simp only [Bool.false_eq_true, if_false]
        cases h2 : isUpperC c
        · simp only [Bool.false_eq_true, if_false]
          cases h3 : isPunct6 c
          · -- other character: p :: pend.reverse ++ c :: spAfterGo none cs
            simp only [Bool.false_eq_true, if_false]
            have hrec := ih.2 hocs hncs
            constructor
            · refine onlyPlain_cons (by rw [hp]; simp) ?_
              refine onlyPlain_append ?_ (onlyPlain_cons (by rw [h1]; simp) hrec.1)
              intro x hx hsx
              exact ho x (by simp [hx]) hsx
            · have hn2 : noAdjSpace ((p :: pend.reverse) ++ c :: cs) := by
                simpa using hn
              have goal2 : noAdjSpace ((p :: pend.reverse) ++
                  (c :: spAfterGo none cs)) := by
                refine noAdj_append (List.chain'_append.mp hn2).1
                  (noAdj_cons_left h1 hrec.2.1) ?_
                intro x _ y hy hcc
                simp at hy
                rw [← hy, h1] at hcc
                simp at hcc
              simpa using goal2
          · -- punctuation: p :: pend.reverse ++ spAfterGo (some (c, [])) cs
            simp only [if_true]
            have hrec := ih.1 c [] (punct_not_space h3) (by simpa using hocc)
              (by simpa using hncc)
            constructor
            · refine onlyPlain_cons (by rw [hp]; simp) ?_
              refine onlyPlain_append ?_ hrec.1
              intro x hx hsx
              exact ho x (by simp [hx]) hsx
            · have hn2 : noAdjSpace ((p :: pend.reverse) ++ c :: cs) := by
                simpa using hn
              have goal2 : noAdjSpace ((p :: pend.reverse) ++
                  spAfterGo (some (c, [])) cs) := by
                refine noAdj_append (List.chain'_append.mp hn2).1 hrec.2 ?_
                intro x _ y hy hcc
                rw [spAfterGo_some_head] at hy
                simp at hy
                rw [← hy, punct_not_space h3] at hcc
                simp at hcc
              simpa using goal2
        · -- uppercase: p :: ' ' :: c :: spAfterGo none cs
          simp only [if_true]
          have hrec := ih.2 hocs hncs
          constructor
          · refine onlyPlain_cons (by rw [hp]; simp) ?_
            refine onlyPlain_cons (by simp) ?_
            exact onlyPlain_cons (by rw [h1]; simp) hrec.1
          · refine noAdj_cons_left hp ?_
            refine List.chain'_cons'.mpr ⟨?_, noAdj_cons_left h1 hrec.2.1⟩
            intro y hy hcc
            simp at hy
            rw [← hy, h1] at hcc
            simp at hcc
      · -- whitespace: absorb into the pending run
        simp only [if_true]
        refine ih.1 p (c :: pend) hp ?_ ?_
        · simpa using ho
        · simpa using hn
    · -- the `none` state
      intro ho hn
      have hocs : onlyPlainSpace cs := onlyPlain_cons_elim ho
      have hncs : noAdjSpace cs := noAdj_cons_elim hn
      simp only [spAfterGo]
      cases h3 : isPunct6 c
      · simp only [Bool.false_eq_true, if_false]
        have hrec := ih.2 hocs hncs
        refine ⟨onlyPlain_cons (fun hs => ho c (by simp) hs) hrec.1, ?_, ?_⟩
        · refine List.chain'_cons'.mpr ⟨?_, hrec.2.1⟩
          intro y hy hcc
          rcases hrec.2.2 y hy hcc.2 with ⟨d, hd, hsd⟩
          have := (List.chain'_cons'.mp hn).1 d hd
          exact this ⟨hcc.1, hsd⟩
        · intro c2 h2 hs2
          simp at h2
          exact ⟨c, rfl, by rw [h2]; exact hs2⟩
      · simp only [if_true]
        have hrec := ih.1 c [] (punct_not_space h3) (by simpa using ho)
          (by simpa using hn)
        refine ⟨hrec.1, hrec.2, ?_⟩
        intro c2 h2 hs2
        rw [spAfterGo_some_head] at h2
        simp at h2
        rw [← h2, punct_not_space h3] at hs2
        simp at hs2

theorem spaceAfterPunct_spec {l : List Char} (ho : onlyPlainSpace l)
    (hn : noAdjSpace l) :
    onlyPlainSpace (spaceAfterPunct l) ∧ noAdjSpace (spaceAfterPunct l) :=
  ⟨((spAfterGo_spec l).2 ho hn).1, ((spAfterGo_spec l).2 ho hn).2.1⟩

/-! CamelCase splitting preserves the invariant. -/

theorem camelSpace_head : ∀ (l : List Char), (camelSpace l).head? = l.head? := by
  intro l
  match l with
  | [] => rfl
  | [c] => rfl
  | a :: b :: cs =>
    simp only [camelSpace]
    cases h : (isLowerC a && isUpperC b) <;> simp

theorem camelSpace_spec : ∀ (l : List Char), onlyPlainSpace l → noAdjSpace l →
    onlyPlainSpace (camelSpace l) ∧ noAdjSpace (camelSpace l) := by
  intro l
  induction l using camelSpace.induct with
  | case1 => intro _ _; exact ⟨by simp [camelSpace, onlyPlainSpace], by simp [camelSpace, noAdjSpace]⟩
  | case2 c => intro ho hn; simpa [camelSpace] using ⟨ho, hn⟩
  | case3 a b cs hab ih =>
    intro ho hn
    have hocs : onlyPlainSpace cs :=
      onlyPlain_cons_elim (onlyPlain_cons_elim ho)
    have hncs : noAdjSpace cs := noAdj_cons_elim (noAdj_cons_elim hn)
    have hrec := ih hocs hncs
    have hla : isLowerC a = true := (Bool.and_eq_true _ _ |>.mp hab).1
    have hub : isUpperC b = true := (Bool.and_eq_true _ _ |>.mp hab).2
    simp only [camelSpace, hab, if_true]
    constructor
    · refine onlyPlain_cons (by rw [lower_not_space hla]; simp) ?_
      refine onlyPlain_cons (by simp) ?_
      exact onlyPlain_cons (by rw [upper_not_space hub]; simp) hrec.1
    · refine noAdj_cons_left (lower_not_space hla) ?_
      refine List.chain'_cons'.mpr ⟨?_, noAdj_cons_left (upper_not_space hub) hrec.2⟩
      intro y hy hcc
      simp at hy
      rw [← hy, upper_not_space hub] at hcc
      simp at hcc
  | case4 a b cs hab ih =>
    intro ho hn
    have hobc : onlyPlainSpace (b :: cs) := onlyPlain_cons_elim ho
    have hnbc : noAdjSpace (b :: cs) := noAdj_cons_elim hn
    have hrec := ih hobc hnbc
    simp only [camelSpace, hab, Bool.false_eq_true, if_false]
    constructor
    · exact onlyPlain_cons (fun hs => ho a (by simp) hs) hrec.1
    · refine List.chain'_cons'.mpr ⟨?_, hrec.2⟩
      intro y hy hcc
      rw [camelSpace_head, List.head?_cons] at hy
      simp at hy
      have := (List.chain'_cons'.mp hn).1 b (by simp)
      rw [hy] at this
      exact this hcc

/-! The remaining phases act only at newlines, and the invariant rules
newlines out. -/

theorem nlRunGo_nlfree (k : Nat) (hk : 1 ≤ k) :
    ∀ (l : List Char), (∀ c ∈ l, c ≠ '\n') → nlRunGo k [] l = l := by
  intro l
  induction l with
  | nil =>
    intro _
    show flushNLRun k [] = []
    unfold flushNLRun
    rw [if_neg (by unfold countNL; simp; omega)]
    rfl
  | cons c cs ih =>
    intro hnl
    have hc : c ≠ '\n' := hnl c (by simp)
    simp only [nlRunGo]
    rw [if_neg hc]
    exact congrArg (c :: ·) (ih (fun x hx => hnl x (by simp [hx])))

theorem nlUpper_nlfree : ∀ (l : List Char), (∀ c ∈ l, c ≠ '\n') →
    nlUpper l = l := by
  intro l
  induction l with
  | nil => intro _; rfl
  | cons c cs ih =>
    intro hnl
    have hc : c ≠ '\n' := hnl c (by simp)
    rw [nlUpper.eq_def]
    simp only [hc, if_false]
    exact congrArg (c :: ·) (ih (fun x hx => hnl x (by simp [hx])))

theorem subLineGo_false_id (m : List Char → Option (List Char)) :
    ∀ (fuel : Nat) (l : List Char), (∀ c ∈ l, c ≠ '\n') →
      subLineGo m fuel false l = l := by
  intro fuel
  induction fuel with
  | zero => intro l _; rfl
  | succ n ih =>
    intro l hnl
    cases l with
    | nil => rfl
    | cons c cs =>
      simp only [subLineGo, Bool.false_eq_true, if_false]
      have hc : (c == '\n') = false := beq_eq_false_iff_ne.mpr (hnl c (by simp))
      rw [hc]
      exact congrArg (c :: ·) (ih cs (fun x hx => hnl x (by simp [hx])))

theorem subLinePat_nlfree {m : List Char → Option (List Char)}
    (hm : ∀ l, (∀ c ∈ l, c ≠ '\n') → m l = none ∨ m l = some [])
    (l : List Char) (hnl : ∀ c ∈ l, c ≠ '\n') :
    subLinePat m l = l ∨ subLinePat m l = [] := by
  unfold subLinePat
  cases l with
  | nil => left; rfl
  | cons c cs =>
    simp only [List.length_cons, subLineGo, if_true]
    rcases hm (c :: cs) hnl with h | h
    · rw [h]
      left
      have hc : (c == '\n') = false := beq_eq_false_iff_ne.mpr (hnl c (by simp))
      rw [hc]
      exact congrArg (c :: ·)
        (subLineGo_false_id m _ cs (fun x hx => hnl x (by simp [hx])))
    · rw [h]
      right
      split
      · rename_i rest heq
        injection heq with heq2
        subst heq2
        rw [if_pos (show ([] : List Char).length < cs.length + 1 by simp)]
        rfl
      · rename_i heq
        cases heq

theorem coreDigits_suffix : ∀ (a r : List Char), coreDigits a = some r →
    r <:+ a := by
  intro a r h
  unfold coreDigits at h
  cases ht : a.takeWhile isDigitC with
  | nil => rw [ht] at h; simp at h
  | cons x xs =>
    rw [ht] at h
    simp at h
    rw [← h]
    exact List.dropWhile_suffix _

theorem coreUpper1_suffix : ∀ (a r : List Char), coreUpper1 a = some r →
    r <:+ a := by
  intro a r h
  cases a with
  | nil => simp [coreUpper1] at h
  | cons c rest =>
    simp only [coreUpper1] at h
    by_cases hu : isUpperC c = true
    · rw [if_pos hu] at h
      simp at h
      rw [← h]
      exact List.suffix_cons c rest
    · rw [if_neg hu] at h; cases h

theorem coreUpperDigits_suffix : ∀ (a r : List Char),
    coreUpperDigits a = some r → r <:+ a := by
  intro a r h
  cases a with
  | nil => simp [coreUpperDigits] at h
  | cons c rest =>
    simp only [coreUpperDigits] at h
    by_cases hu : isUpperC c = true
    · rw [if_pos hu] at h
      cases ht : rest.takeWhile isDigitC with
      | nil => rw [ht] at h; simp at h
      | cons x xs =>
        rw [ht] at h
        simp at h
        rw [← h]
        exact (List.dropWhile_suffix _).trans (List.suffix_cons c rest)
    · rw [if_neg hu] at h; cases h

theorem mLineCore_nlfree {core : List Char → Option (List Char)}
    (hcore : ∀ a r, core a = some r → r <:+ a) :
    ∀ (l : List Char), (∀ c ∈ l, c ≠ '\n') →
      mLineCore core l = none ∨ mLineCore core l = some [] := by
  intro l hnl
  rcases h : core (l.dropWhile isPySpace) with _ | a2
  · left
    simp only [mLineCore, h]
  · have ha2 : a2 <:+ l := (hcore _ _ h).trans (List.dropWhile_suffix _)
    have hcount : countNL (a2.takeWhile isPySpace) = 0 := by
      unfold countNL
      rw [List.length_eq_zero, List.filter_eq_nil_iff]
      intro x hx
      have hmem : x ∈ l :=
        ha2.subset ((List.takeWhile_prefix _).subset hx)
      simpa using hnl x hmem
    by_cases he : (a2.dropWhile isPySpace).isEmpty = true
    · right
      simp only [mLineCore, h, he, if_true]
    · left
      simp only [mLineCore, h]
      rw [if_neg he, if_pos hcount]

/-! Stripping and the final assembly. -/

theorem noAdjSpace_reverse {l : List Char} (h : noAdjSpace l) :
    noAdjSpace l.reverse := by
  rw [noAdjSpace, List.chain'_reverse]
  exact List.Chain'.imp (fun a b hab hc => hab ⟨hc.2, hc.1⟩) h

theorem pyStrip_spec {l : List Char} (ho : onlyPlainSpace l)
    (hn : noAdjSpace l) :
    onlyPlainSpace (pyStrip l) ∧ noAdjSpace (pyStrip l) ∧
    (∀ c, (pyStrip l).head? = some c → isPySpace c = false) ∧
    (∀ c, (pyStrip l).getLast? = some c → isPySpace c = false) := by
  unfold pyStrip
  have hmem : ∀ c ∈ ((l.dropWhile isPySpace).reverse.dropWhile
      isPySpace).reverse, c ∈ l := by
    intro c hc
    have h1 := List.mem_reverse.mp hc
    have h2 := (List.dropWhile_suffix isPySpace).subset h1
    have h3 := List.mem_reverse.mp h2
    exact (List.dropWhile_suffix isPySpace).subset h3
  refine ⟨fun c hc => ho c (hmem c hc), ?_, ?_, ?_⟩
  · refine noAdjSpace_reverse ?_
    refine List.Chain'.suffix ?_ (List.dropWhile_suffix isPySpace)
    refine noAdjSpace_reverse ?_
    exact hn.suffix (List.dropWhile_suffix isPySpace)
  · intro c hc
    rw [List.head?_reverse] at hc
    have hy : ((l.dropWhile isPySpace).reverse.dropWhile isPySpace) ≠ [] := by
      intro hnil
      rw [hnil] at hc
      simp at hc
    obtain ⟨t, ht⟩ := List.dropWhile_suffix
      (l := (l.dropWhile isPySpace).reverse) isPySpace
    have heq : ((l.dropWhile isPySpace).reverse).getLast? = some c := by
      rw [← ht, List.getLast?_append_of_ne_nil _ hy]
      exact hc
    rw [List.getLast?_reverse] at heq
    exact head?_dropWhile_not isPySpace l c heq
  · intro c hc
    rw [List.getLast?_reverse] at hc
    exact head?_dropWhile_not isPySpace _ c hc

theorem onlyPlainSpace_nil : onlyPlainSpace [] := by
  intro c hc
  simp at hc

theorem noAdjSpace_nil : noAdjSpace [] := List.chain'_nil

theorem wsNormalized_mk (l : List Char) (ho : onlyPlainSpace l)
    (hn : noAdjSpace l)
    (hh : ∀ c, l.head? = some c → isPySpace c = false)
    (hl : ∀ c, l.getLast? = some c → isPySpace c = false) :
    wsNormalized (String.mk l) := ⟨ho, hn, hh, hl⟩

/-- The whitespace-normalization invariant of `clean_text`: whatever the
input, the output has only single plain interior spaces and no leading or
trailing whitespace. -/
theorem clean_text_wsNormalized (s : String) : wsNormalized (clean_text s) := by
  by_cases hs : s = ""
  · subst hs
    refine ⟨onlyPlainSpace_nil, noAdjSpace_nil, ?_, ?_⟩ <;>
      (intro c hc; simp [clean_text] at hc)
  · have hstep : ∀ (m : List Char → Option (List Char)),
        (∀ a, (∀ c ∈ a, c ≠ '\n') → m a = none ∨ m a = some []) →
        ∀ t, onlyPlainSpace t → noAdjSpace t →
          onlyPlainSpace (subLinePat m t) ∧ noAdjSpace (subLinePat m t) := by
      intro m hm t hot hnt
      rcases subLinePat_nlfree hm t (onlyPlainSpace_no_nl hot) with h | h <;> rw [h]
      · exact ⟨hot, hnt⟩
      · exact ⟨onlyPlainSpace_nil, noAdjSpace_nil⟩
    simp only [clean_text, hs, if_false]
    generalize applyOcrFixes (s.data.filter allowedChar) = t1
    have h2o : onlyPlainSpace (collapseWS t1) := collapseGo_onlyPlain t1 false
    have h2n : noAdjSpace (collapseWS t1) := collapseGo_noAdj t1 false
    obtain ⟨h3o, h3n⟩ := dropSpBeforePunct_spec h2o h2n
    obtain ⟨h4o, h4n⟩ := spaceAfterPunct_spec h3o h3n
    obtain ⟨h5o, h5n⟩ := camelSpace_spec _ h4o h4n
    have h6 : nlRunSub 2 (camelSpace (spaceAfterPunct (dropSpBeforePunct
        (collapseWS t1)))) = camelSpace (spaceAfterPunct (dropSpBeforePunct
        (collapseWS t1))) :=
      nlRunGo_nlfree 2 (by omega) _ (onlyPlainSpace_no_nl h5o)
    rw [h6]
    have h7 : nlUpper (camelSpace (spaceAfterPunct (dropSpBeforePunct
        (collapseWS t1)))) = camelSpace (spaceAfterPunct (dropSpBeforePunct
        (collapseWS t1))) :=
      nlUpper_nlfree _ (onlyPlainSpace_no_nl h5o)
    rw [h7]
    obtain ⟨h8o, h8n⟩ := hstep (mLineCore coreDigits)
      (mLineCore_nlfree coreDigits_suffix) _ h5o h5n
    obtain ⟨h9o, h9n⟩ := hstep (mLineCore coreUpper1)
      (mLineCore_nlfree coreUpper1_suffix) _ h8o h8n
    obtain ⟨h10o, h10n⟩ := hstep (mLineCore coreUpperDigits)
      (mLineCore_nlfree coreUpperDigits_suffix) _ h9o h9n
    obtain ⟨h11o, h11n, h11h, h11l⟩ := pyStrip_spec h10o h10n
    have h12 : nlRunSub 3 (pyStrip (subLinePat (mLineCore coreUpperDigits)
          (subLinePat (mLineCore coreUpper1) (subLinePat (mLineCore coreDigits)
            (camelSpace (spaceAfterPunct (dropSpBeforePunct
              (collapseWS t1))))))))
        = pyStrip (subLinePat (mLineCore coreUpperDigits)
          (subLinePat (mLineCore coreUpper1) (subLinePat (mLineCore coreDigits)
            (camelSpace (spaceAfterPunct (dropSpBeforePunct
              (collapseWS t1))))))) :=
      nlRunGo_nlfree 3 (by omega) _ (onlyPlainSpace_no_nl h11o)
    rw [h12]
    exact wsNormalized_mk _ h11o h11n h11h h11l

/-! ## Disjointness of the groups of `create_document_groups` -/

theorem lookAheadLoop_spec (sorted : List Entry) (used : List Nat) :
    ∀ (js : List Nat) (ges : List Entry) (gis : List Nat),
      js.Nodup →
      ∃ new, (lookAheadLoop sorted used js ges gis).2 = gis ++ new ∧
        new.Nodup ∧ (∀ j ∈ new, j ∈ js ∧ j ∉ used) := by
  intro js
  induction js with
  | nil =>
    intro ges gis _
    exact ⟨[], by simp [lookAheadLoop], List.nodup_nil, by simp⟩
  | cons j rest ih =>
    intro ges gis hnd
    have hndr : rest.Nodup := (List.nodup_cons.mp hnd).2
    have hjr : j ∉ rest := (List.nodup_cons.mp hnd).1
    simp only [lookAheadLoop]
    by_cases hju : j ∈ used
    · rw [if_pos hju]
      obtain ⟨new, h1, h2, h3⟩ := ih ges gis hndr
      exact ⟨new, h1, h2, fun x hx => ⟨List.mem_cons_of_mem j (h3 x hx).1,
        (h3 x hx).2⟩⟩
    · rw [if_neg hju]
      by_cases hct : contTest (ges.getLastD default) (sorted.getD j default) = true
      · rw [if_pos hct]
        obtain ⟨new, h1, h2, h3⟩ := ih (ges ++ [sorted.getD j default])
          (gis ++ [j]) hndr
        refine ⟨j :: new, ?_, ?_, ?_⟩
        · rw [h1]; simp
        · refine List.nodup_cons.mpr ⟨?_, h2⟩
          intro hj
          exact hjr (h3 j hj).1
        · intro x hx
          rcases List.mem_cons.mp hx with rfl | hm
          · exact ⟨List.mem_cons_self _ _, hju⟩
          · exact ⟨List.mem_cons_of_mem j (h3 x hm).1, (h3 x hm).2⟩
      · rw [if_neg hct]
        by_cases hlen : 1 < ges.length
        · rw [if_pos hlen]
          exact ⟨[], by simp, List.nodup_nil, by simp⟩
        · rw [if_neg hlen]
          obtain ⟨new, h1, h2, h3⟩ := ih ges gis hndr
          exact ⟨new, h1, h2, fun x hx => ⟨List.mem_cons_of_mem j (h3 x hx).1,
            (h3 x hx).2⟩⟩

theorem cdgOuter_spec (sorted : List Entry) :
    ∀ (idxs used : List Nat),
      List.Pairwise (fun a b => ∀ x ∈ a.1, x ∉ b.1)
        (cdgOuter sorted idxs used) ∧
      (∀ g ∈ cdgOuter sorted idxs used, ∀ x ∈ g.1, x ∉ used) := by
  intro idxs
  induction idxs with
  | nil => intro used; simp [cdgOuter]
  | cons i rest ih =>
    intro used
    simp only [cdgOuter]
    by_cases hiu : i ∈ used
    · rw [if_pos hiu]; exact ih used
    · rw [if_neg hiu]
      by_cases hc : ((pyStrip ((sorted.getD i default).content.getD "").data).isEmpty
          || decide ((pyStrip ((sorted.getD i default).content.getD "").data).length < 20))
          = true
      · rw [if_pos hc]; exact ih used
      · rw [if_neg hc]
        obtain ⟨new, h1, h2, h3⟩ := lookAheadLoop_spec sorted used
          (List.range' (i + 1) (min (i + 10) sorted.length - (i + 1)))
          [sorted.getD i default] [i] (List.nodup_range' _ _)
        have hgis : ∀ x ∈ (lookAheadLoop sorted used
            (List.range' (i + 1) (min (i + 10) sorted.length - (i + 1)))
            [sorted.getD i default] [i]).2, x ∉ used := by
          rw [h1]
          intro x hx
          rcases List.mem_append.mp hx with hm | hm
          · simp at hm; subst hm; exact hiu
          · exact (h3 x hm).2
        obtain ⟨ihp, ihu⟩ := ih (used ++ (lookAheadLoop sorted used
          (List.range' (i + 1) (min (i + 10) sorted.length - (i + 1)))
          [sorted.getD i default] [i]).2)
        constructor
        · refine List.pairwise_cons.mpr ⟨?_, ihp⟩
          intro b hb x hx hxb
          have := ihu b hb x hxb
          exact this (List.mem_append.mpr (Or.inr hx))
        · intro g hg x hx
          rcases List.mem_cons.mp hg with rfl | hm
          · exact hgis x hx
          · intro hxu
            exact ihu g hm x hx (List.mem_append.mpr (Or.inl hxu))

theorem createDocumentGroupsIdx_disjoint (entries : List Entry) :
    List.Pairwise (fun a b => ∀ x ∈ a.1, x ∉ b.1)
      (createDocumentGroupsIdx entries) := by
  unfold createDocumentGroupsIdx
  by_cases he : entries.isEmpty = true
  · rw [if_pos he]; simp
  · rw [if_neg he]
    exact (cdgOuter_spec (sortByPage entries)
      (List.range (sortByPage entries).length) []).1

/-! ## The scoring of `identify_document_type` as a weighted-indicator sum -/

theorem scoreOf_eq_specScoreAmended (dt content : String) :
    scoreOf dt content = specScoreAmended dt content := by
  unfold scoreOf specScoreAmended heurScore heurTableAmended ind
  by_cases h1 : dt = "letter"
  · subst h1
    simp only [if_pos rfl]
    cases letterKwSig content <;> cases letterDateSig content <;> norm_num
  by_cases h2 : dt = "telegram"
  · subst h2
    simp only [if_neg (by decide : ¬("telegram" = "letter")), if_pos rfl]
    cases telegramKwSig content <;> cases telegramShortSig content <;> norm_num
  by_cases h3 : dt = "report"
  · subst h3
    simp only [if_neg (by decide : ¬("report" = "letter")),
      if_neg (by decide : ¬("report" = "telegram")), if_pos rfl]
    cases reportKwSig content <;> cases reportLongSig content <;> norm_num
  by_cases h4 : dt = "list"
  · subst h4
    simp only [if_neg (by decide : ¬("list" = "letter")),
      if_neg (by decide : ¬("list" = "telegram")),
      if_neg (by decide : ¬("list" = "report")), if_pos rfl]
    cases listNumberedSig content <;> cases listKwSig content <;> norm_num
  · simp only [if_neg h1, if_neg h2, if_neg h3, if_neg h4]
    norm_num

theorem identify_eq_specIdentifyAmended (content : String) :
    identify_document_type content = specIdentifyAmended content := by
  unfold identify_document_type specIdentifyAmended specSelect
  have hf : (fun dt => specScoreAmended dt content)
      = (fun dt => scoreOf dt content) :=
    funext (fun dt => (scoreOf_eq_specScoreAmended dt content).symm)
  rw [hf]

theorem wsNormalized_empty : wsNormalized "" := by
  refine ⟨onlyPlainSpace_nil, noAdjSpace_nil, ?_, ?_⟩ <;>
    (intro c hc; exact Option.noConfusion hc)

/-- The content field of `clean_entry`: cleaned when truthy, untouched
otherwise (the date/location phases never write `content`). -/
theorem clean_entry_content (e : Entry) :
    (clean_entry e).content
      = if truthyS e.content = true then some (clean_text (e.content.getD ""))
        else e.content := by
  by_cases h1 : truthyS e.content = true <;>
    by_cases h2 : truthyS e.raw_ocr_text = true <;>
      by_cases h3 : truthyS e.location = true <;>
        simp only [clean_entry, h1, h2, h3, Bool.false_eq_true, if_true,
          if_false, reduceIte] <;>
        (repeat' split) <;> rfl

/-- When `date_entry` is present and non-empty, `clean_entry` keeps it and
stamps `date_inferred = false`. -/
theorem clean_entry_date_explicit (e : Entry)
    (hde : ¬ (e.date_entry.getD "" = "")) :
    (clean_entry e).date_entry = e.date_entry ∧
    (clean_entry e).date_inferred = some false := by
  simp only [clean_entry]
  rw [if_neg hde]
  constructor <;>
  · (repeat' split) <;> rfl

/-! ## The claims -/

/-- Claim C1 (corrected): while the group being built by
`create_document_groups` has at least two members, a SINGLE look-ahead
candidate that is unused and fails the continuation test closes the group at
once — the source breaks out of the look-ahead loop on the first failure
whenever `len(current_group) > 1`, with no two-consecutive-failures rule.
(The claim's stated rule is refuted by `claim_C1_counterexample`.) -/
theorem claim_C1 (sorted : List Entry) (used : List Nat) (j : Nat)
    (js : List Nat) (ges : List Entry) (gis : List Nat)
    (hju : j ∉ used)
    (hct : contTest (ges.getLastD default) (sorted.getD j default) = false)
    (hlen : 1 < ges.length) :
    lookAheadLoop sorted used (j :: js) ges gis = (ges, gis) := by
  simp only [lookAheadLoop]
  rw [if_neg hju, if_neg (by rw [hct]; simp), if_pos hlen]

/-- The run refuting claim C1 as stated: with pages 1–4, the group opened at
`exA1` absorbs `exA2`; the single failed candidate `exA3` then closes the
group, although `exA4` — still inside the 10-entry look-ahead window and a
valid continuation of `exA2` — would have been absorbed under the claim's
two-consecutive-failures rule. -/
theorem claim_C1_counterexample :
    (create_document_groups [exA1, exA2, exA3, exA4]).map
        (fun g => g.entries) = [[exA1, exA2], [exA3], [exA4]] ∧
    contTest exA2 exA3 = false ∧ contTest exA2 exA4 = true :=
  ⟨by decide, by decide, by decide⟩

/-- Witness for claim C1 at a concrete run of the look-ahead loop. -/
theorem claim_C1_witness :
    (2 : Nat) ∉ ([] : List Nat) ∧
    contTest ([exA1, exA2].getLastD default)
      ([exA1, exA2, exA3, exA4].getD 2 default) = false ∧
    1 < [exA1, exA2].length ∧
    lookAheadLoop [exA1, exA2, exA3, exA4] [] [2, 3] [exA1, exA2] [0, 1]
      = ([exA1, exA2], [0, 1]) :=
  ⟨by decide, by decide, by decide,
    claim_C1 _ _ _ _ _ _ (by decide) (by decide) (by decide)⟩

/-- Claim C2 (corrected): when the group under construction has exactly one
member and an unused look-ahead candidate fails the continuation test, the
loop does NOT close the group — it skips the candidate and keeps scanning, so
a later candidate in the window can still join the single-member group.
(`claim_C2_counterexample` shows such a late join.) -/
theorem claim_C2 (sorted : List Entry) (used : List Nat) (j : Nat)
    (js : List Nat) (g : Entry) (gis : List Nat)
    (hju : j ∉ used)
    (hct : contTest g (sorted.getD j default) = false) :
    lookAheadLoop sorted used (j :: js) [g] gis
      = lookAheadLoop sorted used js [g] gis := by
  simp only [lookAheadLoop]
  rw [if_neg hju]
  have hg : [g].getLastD default = g := rfl
  rw [hg, if_neg (by rw [hct]; simp), if_neg (by simp)]

/-- The run refuting claim C2 as stated: the group opened at `exB1` is not
closed when the first candidate `exB2` fails the continuation test; the loop
skips `exB2` and later absorbs `exB3`, producing the group `[exB1, exB3]`
rather than the single-page group `[exB1]`. -/
theorem claim_C2_counterexample :
    (create_document_groups [exB1, exB2, exB3]).map
        (fun g => g.entries) = [[exB1, exB3], [exB2]] ∧
    contTest exB1 exB2 = false :=
  ⟨by decide, by decide⟩

/-- Witness for claim C2 at a concrete run of the look-ahead loop. -/
theorem claim_C2_witness :
    (1 : Nat) ∉ ([] : List Nat) ∧
    contTest exB1 ([exB1, exB2, exB3].getD 1 default) = false ∧
    lookAheadLoop [exB1, exB2, exB3] [] [1, 2] [exB1] [0]
      = lookAheadLoop [exB1, exB2, exB3] [] [2] [exB1] [0] :=
  ⟨by decide, by decide, claim_C2 _ _ _ _ _ _ (by decide) (by decide)⟩

/-- Claim C7 (corrected): whenever the input record's `content` field is
present (a string, possibly empty), `clean_entry` returns a record whose
`content` is present and whitespace-normalized — single plain interior
spaces, no leading or trailing whitespace. The claim's universal form is
refuted by `claim_C7_counterexample`: a record with `content = null` keeps
`content = null`, since `clean_entry` only rewrites fields that are present
and truthy. -/
theorem claim_C7 (e : Entry) (s : String) (h : e.content = some s) :
    ∃ t, (clean_entry e).content = some t ∧ wsNormalized t := by
  by_cases ht : truthyS e.content = true
  · exact ⟨clean_text (e.content.getD ""),
      by rw [clean_entry_content, if_pos ht], clean_text_wsNormalized _⟩
  · have hs : s = "" := by
      simp [truthyS, h] at ht
      exact ht
    refine ⟨"", ?_, wsNormalized_empty⟩
    rw [clean_entry_content, if_neg ht, h, hs]

/-- Witness for claim C7 at a concrete record with present content. -/
theorem claim_C7_witness :
    exPlain.content = some "x" ∧
    ∃ t, (clean_entry exPlain).content = some t ∧ wsNormalized t :=
  ⟨by decide, claim_C7 exPlain "x" (by decide)⟩

/-- Counterexample to claim C7 as stated: a record whose `content` is null
comes out of `clean_entry` with `content` still null. -/
theorem claim_C7_counterexample :
    exNullContent.content = none ∧
    (clean_entry exNullContent).content = none :=
  ⟨by decide, by decide⟩

/-- Claim C8 (corrected): for records whose `date_entry` is present AND
non-empty, `clean_entry` leaves `date_entry` unchanged and sets
`date_inferred = false`; but presence alone is not enough — the source tests
`if not date_entry`, so a present-but-empty `date_entry` takes the inference
branch (see `claim_C8_counterexample`). -/
theorem claim_C8 (e : Entry) (s : String) (h : e.date_entry = some s)
    (hs : s ≠ "") :
    (clean_entry e).date_entry = some s ∧
    (clean_entry e).date_inferred = some false := by
  have hde : ¬ (e.date_entry.getD "" = "") := by
    rw [h]
    simpa using hs
  have h2 := clean_entry_date_explicit e hde
  exact ⟨h2.1.trans h, h2.2⟩

/-- Witness for claim C8 at a concrete record with a non-empty date. -/
theorem claim_C8_witness :
    exPlain.date_entry = some "1933-05-01" ∧
    ("1933-05-01" : String) ≠ "" ∧
    (clean_entry exPlain).date_entry = some "1933-05-01" ∧
    (clean_entry exPlain).date_inferred = some false := by
  have h := claim_C8 exPlain "1933-05-01" (by decide) (by decide)
  exact ⟨by decide, by decide, h.1, h.2⟩

/-- Counterexample to claim C8 as stated: `exDate` has `date_entry` present
but equal to `""`; `clean_entry` overwrites it with the inferred date
`"1933-07"` and stamps `date_inferred = true`, not `false`. -/
theorem claim_C8_counterexample :
    exDate.date_entry = some "" ∧
    (clean_entry exDate).date_entry = some "1933-07" ∧
    (clean_entry exDate).date_inferred = some true :=
  ⟨by decide, by decide, by decide⟩

/-- Claim C10 (confirmed): the groups returned by `create_document_groups`
are pairwise disjoint — the index sets recorded alongside each group share
no element, and the returned groups are exactly those groups, so no input
record is a member of two different groups. -/
theorem claim_C10 (entries : List Entry) :
    List.Pairwise (fun a b => ∀ x ∈ a.1, x ∉ b.1)
      (createDocumentGroupsIdx entries) ∧
    create_document_groups entries
      = (createDocumentGroupsIdx entries).map (fun g => g.2) :=
  ⟨createDocumentGroupsIdx_disjoint entries, rfl⟩

/-- Claim C3 (corrected): `identify_document_type` scores each of the five
candidate types as +0.4 for a start-pattern match, +0.3 for an end-pattern
match, +0.2 for a continuation-pattern match, plus type-specific
keyword/length heuristics — which contribute +0.1 each EXCEPT the telegram
keyword heuristic and the list numbered-items heuristic, which contribute
+0.2 — capped at 1.0; it selects the first type attaining the maximum score
and returns `("unknown", best)` whenever the best score is below 0.3. -/
theorem claim_C3 (content : String) :
    identify_document_type content = specIdentifyAmended content :=
  identify_eq_specIdentifyAmended content

/-- Counterexample to claim C3 as stated: on `"cable cable cable cable."`
the source gives telegram 0.2 (keywords) + 0.1 (short) = 0.3 and narrative
0.3, so the argmax in iteration order is `telegram`; under the claim's
"+0.1 each" weights telegram would score only 0.2 and the result would be
`narrative`. -/
theorem claim_C3_counterexample :
    identify_document_type "cable cable cable cable."
      = ("telegram", (3:ℚ)/10) ∧
    specIdentifyClaim "cable cable cable cable."
      = ("narrative", (3:ℚ)/10) ∧
    identify_document_type "cable cable cable cable."
      ≠ specIdentifyClaim "cable cable cable cable." :=
  ⟨by decide, by decide, by decide⟩

/-- Claim C4 (corrected): `infer_date_from_content` returns `None` for empty
content — the `if not content` guard short-circuits before the
location-mapping strategy — while for non-empty content without an explicit
date or other clue, location `"Tokyo"` does yield `"1933-07"`. -/
theorem claim_C4 :
    infer_date_from_content "x" "Tokyo" = some "1933-07" ∧
    infer_date_from_content "" "Tokyo" = none :=
  ⟨by decide, by decide⟩

/-- Counterexample to claim C4 as stated: with empty content the function
returns `None`, not `"1933-07"`. -/
theorem claim_C4_counterexample :
    infer_date_from_content "" "Tokyo" = none ∧
    infer_date_from_content "" "Tokyo" ≠ some "1933-07" :=
  ⟨by decide, by decide⟩

/-- Claim C5 (corrected): `clean_text` is not idempotent in general (see
`claim_C5_counterexample`: the code-removal substitutions can create a fresh
match on the second pass); it is idempotent on inputs unaffected by the
removal patterns, exemplified here. -/
theorem claim_C5 :
    clean_text (clean_text "It was cold. We walked on.")
      = clean_text "It was cold. We walked on." ∧
    clean_text (clean_text "Tokyo") = clean_text "Tokyo" :=
  ⟨by decide, by decide⟩

/-- Counterexample to claim C5 as stated: on `"1 9 a 8 x 2"` the removal of
`"9 a 8"` (the `\d+\s+[A-Z]\s+\d+` fix) leaves `"1 x 2"`, which the same fix
removes entirely on a second pass, so `clean_text` is not idempotent. -/
theorem claim_C5_counterexample :
    clean_text "1 9 a 8 x 2" = "1 x 2" ∧
    clean_text (clean_text "1 9 a 8 x 2") = "" ∧
    clean_text (clean_text "1 9 a 8 x 2") ≠ clean_text "1 9 a 8 x 2" :=
  ⟨by decide, by decide, by decide⟩

/-- Claim C6 (corrected): with the wall clock passed explicitly, the Cleaner
and the Combiner are deterministic functions of their input EXCEPT for the
stamped timestamp fields (`metadata.cleaned_date`, `metadata.combined_date`
and each combined entry's `timestamp`): after clearing those fields the
outputs of two runs with different clock readings coincide. -/
theorem claim_C6 (lb : Logbook) (n1 n2 : String) :
    scrubCleaned (clean_logbook n1 lb) = scrubCleaned (clean_logbook n2 lb) ∧
    scrubCombined (process_logbook n1 lb)
      = scrubCombined (process_logbook n2 lb) := by
  constructor
  · rfl
  · unfold process_logbook scrubCombined
    simp only [List.map_map]
    have hfun : scrubCombEntry ∘ toCombinedEntry n1
        = scrubCombEntry ∘ toCombinedEntry n2 := by
      funext g
      simp [scrubCombEntry, toCombinedEntry]
    rw [hfun]

/-- Counterexample to claim C6 as stated: two runs on the same input with
different clock readings produce different outputs (the timestamp fields
differ), so the serialized outputs cannot be byte-identical. -/
theorem claim_C6_counterexample :
    clean_logbook "2026-01-01T00:00:00" exLogbook
      ≠ clean_logbook "2026-01-02T00:00:00" exLogbook ∧
    process_logbook "2026-01-01T00:00:00" exLogbook
      ≠ process_logbook "2026-01-02T00:00:00" exLogbook :=
  ⟨by decide, by decide⟩

/-- Claim C9 (confirmed): `infer_date_from_content` never raises — parse
failures are modelled per attempt by `none` — and when every date pattern's
search-and-parse attempt fails (in particular when some pattern finds a
date-like substring that no format parses), the function falls through to
the remaining strategies in order: location mapping, then content scanning,
then the special cases, returning `None` if nothing matches. -/
theorem claim_C9 (content location : String) (hne : content ≠ "")
    (_hfound : ∃ p ∈ date_patterns, (searchEx p content.data).isSome = true)
    (hfail : ∀ p ∈ date_patterns, patternAttempt content p = none) :
    infer_date_from_content content location =
      match inferStratLocation location with
      | some d => some d
      | none =>
        match inferStratContent content with
        | some d => some d
        | none => inferStratSpecial content := by
  unfold infer_date_from_content
  rw [if_neg hne]
  have h1 : inferStratPatterns content = none := by
    unfold inferStratPatterns
    exact List.findSome?_eq_none_iff.mpr hfail
  rw [h1]

/-- Witness for claim C9: `"30 February 1933"` matches the first date
pattern but fails every `strptime` format (the textual formats demand the
comma that `.replace(',', '')` removed, and Feb 30 is no date), so the
function falls through; with no location and no itinerary clue the result
is `None`, and no exception escapes. -/
theorem claim_C9_witness :
    ("30 February 1933" : String) ≠ "" ∧
    (∃ p ∈ date_patterns, (searchEx p "30 February 1933".data).isSome = true) ∧
    (∀ p ∈ date_patterns, patternAttempt "30 February 1933" p = none) ∧
    infer_date_from_content "30 February 1933" "" = none := by
  refine ⟨by decide, ⟨datePat1, List.mem_cons_self _ _, by decide⟩,
    by decide, ?_⟩
  have h := claim_C9 "30 February 1933" "" (by decide)
    ⟨datePat1, List.mem_cons_self _ _, by decide⟩ (by decide)
  rw [h]
  decide

end Log1933
